import Mathlib

/-!
Nokia Snake Game: the engine of `src/script.js`.

A shallow embedding of the class `SnakeGame` of `src/script.js` and a
verification of its state machine: key handling, the update step, collision
tests, food spawning, game over and restart.

Modelling conventions.

* JavaScript numbers that the engine handles are integers (grid coordinates,
  the score) or `NaN` (a high score parsed from a malformed stored string);
  integers are `Int`, a possibly-`NaN` number is `Option Int` with
  `none` for `NaN`.  An integer is a JavaScript number when `roundToDouble`
  leaves its absolute value unchanged; the conversions between numbers and
  strings (`numberToString`, `parseInt`) follow the 53-bit precision of
  doubles.  Arithmetic on coordinates and scores stays far below `2 ^ 53`.
* `this.GRID_COUNT = canvas.width / GRID_SIZE` is taken as an integer: the
  canvas width is a multiple of the cell size.
* `Math.random()` reads the next element of a tape of rationals in `[0, 1)`
  carried in the state.  The rejection loop of `spawnFood` consumes the tape;
  an exhausted tape stands for a loop that has not exited.
* `setInterval` / `clearInterval` act on a set of active interval ids carried
  in the state.
* `localStorage` is an association list from keys to strings.
* Canvas drawing (`render`) and the score, high-score, final-score and clock
  text nodes (`updateDisplay`) are write-only outputs and are not part of the
  state; `event.preventDefault()` has no effect on the game state.
-/

namespace SnakeGame

/-- A grid cell or a direction vector: the object literal with fields x and y. -/
structure Cell where
  x : Int
  y : Int
  deriving DecidableEq, Repr

/-- One value returned by `Math.random()`: the rational `num / den` in `[0, 1)`. -/
structure UnitSample where
  num : Nat
  den : Nat
  lt : num < den

/-- Ways in which a method call fails to return a state. -/
inductive Err where
  /-- A property was read from `undefined` or `null` (a `TypeError`). -/
  | typeError
  /-- The rejection loop of `spawnFood` used up the random tape without exiting. -/
  | noMoreSamples
  deriving DecidableEq, Repr

/-- The fields of a `SnakeGame` instance together with the parts of the
browser environment that the engine reads back. -/
structure State where
  /-- The field `this.GRID_COUNT`, the number of cells per side. -/
  GRID_COUNT : Int
  snake : List Cell
  /-- The field `this.food`; `none` is `null`. -/
  food : Option Cell
  score : Int
  /-- The field `this.highScore`; `none` is `NaN`. -/
  highScore : Option Int
  gameRunning : Bool
  gamePaused : Bool
  direction : Cell
  nextDirection : Cell
  /-- The field `this.gameLoopId`; `none` is `null`. -/
  gameLoopId : Option Nat
  /-- Ids of the intervals that are currently scheduled. -/
  timers : List Nat
  /-- The id that the next `setInterval` call returns. -/
  nextTimerId : Nat
  /-- Whether `#gameOverModal` carries the class `show`. -/
  modalShown : Bool
  /-- The text content of `#gameStatus`. -/
  gameStatus : String
  /-- The contents of `localStorage`. -/
  localStorage : List (String × String)
  /-- The values that future calls of `Math.random()` return. -/
  random : List UnitSample

/-- The method `String.prototype.toLowerCase`, on ASCII letters. -/
def toLowerCase (s : String) : String :=
  ⟨s.data.map Char.toLower⟩

/-- The expression `Math.floor(Math.random() * n)` for the sample `r`. -/
def floorScale (r : UnitSample) (n : Int) : Int :=
  ((r.num : Int) * n) / (r.den : Int)

/-- The function `localStorage.getItem`. -/
def getItem (store : List (String × String)) (key : String) : Option String :=
  store.lookup key

/-- The function `localStorage.setItem`. -/
def setItem (store : List (String × String)) (key value : String) :
    List (String × String) :=
  (key, value) :: store.filter (fun kv => kv.1 ≠ key)

/-- The function `clearInterval`: cancelling `null` or an unknown id does nothing. -/
def clearInterval (timers : List Nat) (id : Option Nat) : List Nat :=
  match id with
  | some i => timers.filter (fun t => t ≠ i)
  | none => timers

/-- The number of halvings that bring `n` below `2 ^ 53`, counted with the
given fuel: the number of low bits of `n` that a double cannot hold. -/
def excessBits : Nat → Nat → Nat
  | 0, _ => 0
  | fuel + 1, n => if n < 2 ^ 53 then 0 else excessBits fuel (n / 2) + 1

/-- The natural number nearest to `n` that a JavaScript number (an IEEE 754
double, 53 significant bits) holds, ties going to the even significand.
Numbers beyond the range of doubles, above `2 ^ 1024`, are not modelled. -/
def roundToDouble (n : Nat) : Nat :=
  let shift := excessBits n n
  let q := n / 2 ^ shift
  let r := n % 2 ^ shift
  if shift = 0 then n
  else if r > 2 ^ (shift - 1) ∨ (r = 2 ^ (shift - 1) ∧ q % 2 = 1) then (q + 1) * 2 ^ shift
  else q * 2 ^ shift

/-- The search of `Number::toString` for the shortest decimal that denotes the
double `x`: the pair `(s, e)` with `s * 10 ^ e` rounding to `x` and `e` as large
as possible, tried from `e` downwards; of two such `s` the one nearer to `x`,
and the even one when they are as near.  At `e = 0` it is `x` itself. -/
def shortestFrom (x : Nat) : Nat → Nat × Nat
  | 0 => (x, 0)
  | e + 1 =>
    let lo := x / 10 ^ (e + 1)
    let hi := lo + 1
    let okLo : Bool := decide (lo ≠ 0) && decide (roundToDouble (lo * 10 ^ (e + 1)) = x)
    let okHi : Bool := decide (roundToDouble (hi * 10 ^ (e + 1)) = x)
    if okLo && okHi then
      if x - lo * 10 ^ (e + 1) < hi * 10 ^ (e + 1) - x then (lo, e + 1)
      else if hi * 10 ^ (e + 1) - x < x - lo * 10 ^ (e + 1) then (hi, e + 1)
      else if lo % 2 = 0 then (lo, e + 1)
      else (hi, e + 1)
    else if okLo then (lo, e + 1)
    else if okHi then (hi, e + 1)
    else shortestFrom x e

/-- The digits `s` and the count `e` of zeros after them in the shortest
decimal `s * 10 ^ e` that denotes the double `x`. -/
def shortestDecimal (x : Nat) : Nat × Nat :=
  shortestFrom x (Nat.toDigits 10 x).length

/-- Conversion of a number to a string, as `setItem` performs it on its argument
(`Number::toString`), for an integer or `NaN`: below `10 ^ 21` the digits of the
shortest decimal followed by its zeros, from `10 ^ 21` on the exponent form
with the first digit, the other digits after a point, and `e+` with the
exponent. -/
def numberToString (n : Option Int) : String :=
  match n with
  | some i =>
    let x := i.natAbs
    let p := shortestDecimal x
    let ds := Nat.toDigits 10 p.1
    let body : List Char :=
      if x < 10 ^ 21 then ds ++ List.replicate p.2 '0'
      else
        let mantissa : List Char :=
          match ds with
          | d :: r :: rs => d :: '.' :: r :: rs
          | _ => ds
        mantissa ++ 'e' :: '+' :: Nat.toDigits 10 (ds.length + p.2 - 1)
    ⟨if i < 0 then '-' :: body else body⟩
  | none => "NaN"

/-- White space that `parseInt` skips in front of the number: the code points of
`WhiteSpace` and `LineTerminator`. -/
def isWhiteSpace (c : Char) : Bool :=
  c.toNat = 32 || (9 ≤ c.toNat && c.toNat ≤ 13) || c.toNat = 160 ||
    c.toNat = 5760 || (8192 ≤ c.toNat && c.toNat ≤ 8202) ||
    c.toNat = 8232 || c.toNat = 8233 || c.toNat = 8239 || c.toNat = 8287 ||
    c.toNat = 12288 || c.toNat = 65279

/-- The value of `c` as a digit in the given radix, if it is one. -/
def digitValue (radix : Nat) (c : Char) : Option Nat :=
  let v :=
    if 48 ≤ c.toNat ∧ c.toNat ≤ 57 then c.toNat - 48
    else if 97 ≤ c.toNat ∧ c.toNat ≤ 122 then c.toNat - 87
    else if 65 ≤ c.toNat ∧ c.toNat ≤ 90 then c.toNat - 55
    else radix
  if v < radix then some v else none

/-- The digits of the longest prefix of `cs` made of digits of the radix. -/
def takeDigits (radix : Nat) : List Char → List Nat
  | [] => []
  | c :: cs =>
    match digitValue radix c with
    | some v => v :: takeDigits radix cs
    | none => []

/-- The function `parseInt` called with one argument; `none` is `NaN`.  The
value of the digits is rounded to the nearest double. -/
def parseInt (s : String) : Option Int :=
  let cs := s.data.dropWhile isWhiteSpace
  let signed : Int × List Char :=
    match cs with
    | '-' :: r => (-1, r)
    | '+' :: r => (1, r)
    | _ => (1, cs)
  let based : Nat × List Char :=
    match signed.2 with
    | '0' :: 'x' :: r => (16, r)
    | '0' :: 'X' :: r => (16, r)
    | _ => (10, signed.2)
  let ds := takeDigits based.1 based.2
  if ds = [] then none
  else
    some (signed.1 *
      ((roundToDouble (ds.foldl (fun acc d => acc * based.1 + d) 0) : Nat) : Int))

/-- The method `loadHighScore`: the empty string is falsy. -/
def loadHighScore (store : List (String × String)) : Option Int :=
  match getItem store "snakeHighScore" with
  | some saved => if saved ≠ "" then parseInt saved else some 0
  | none => some 0

/-- The method `saveHighScore`. -/
def saveHighScore (s : State) : State :=
  { s with localStorage := setItem s.localStorage "snakeHighScore" (numberToString s.highScore) }

/-- The method `isWallCollision`. -/
def isWallCollision (s : State) (head : Cell) : Bool :=
  decide (head.x < 0) || decide (head.x ≥ s.GRID_COUNT) ||
    decide (head.y < 0) || decide (head.y ≥ s.GRID_COUNT)

/-- The method `isSelfCollision`. -/
def isSelfCollision (s : State) (head : Cell) : Bool :=
  s.snake.any (fun segment => decide (segment.x = head.x) && decide (segment.y = head.y))

/-- The method `isFoodCollision`, given the cell held by `this.food`. -/
def isFoodCollision (food head : Cell) : Bool :=
  decide (head.x = food.x) && decide (head.y = food.y)

/-- The loop of `spawnFood`: draw `x` then `y`, exit on a cell off the snake.
Returns the cell and the unread tape, or `none` when the tape runs out first. -/
def spawnFoodLoop (n : Int) (snake : List Cell) :
    List UnitSample → Option (Cell × List UnitSample)
  | rx :: ry :: rest =>
    let newFood : Cell := { x := floorScale rx n, y := floorScale ry n }
    let validPosition : Bool :=
      !snake.any (fun segment =>
        decide (segment.x = newFood.x) && decide (segment.y = newFood.y))
    if validPosition then some (newFood, rest) else spawnFoodLoop n snake rest
  | _ => none

/-- The method `spawnFood`. -/
def spawnFood (s : State) : Except Err State :=
  match spawnFoodLoop s.GRID_COUNT s.snake s.random with
  | some (newFood, rest) => .ok { s with food := some newFood, random := rest }
  | none => .error .noMoreSamples

/-- The method `init`. -/
def init (s : State) : Except Err State :=
  let c := s.GRID_COUNT / 2
  spawnFood
    { s with
      snake := [{ x := c, y := c }, { x := c - 1, y := c }, { x := c - 2, y := c }]
      direction := { x := 0, y := 0 }
      nextDirection := { x := 0, y := 0 }
      score := 0
      gameRunning := false }

/-- The method `startGameLoop`. -/
def startGameLoop (s : State) : State :=
  { s with
    gameLoopId := some s.nextTimerId
    timers := s.nextTimerId :: s.timers
    nextTimerId := s.nextTimerId + 1
    gameStatus := "Game Running..." }

/-- The comparison `this.score > this.highScore`; it is false against `NaN`. -/
def exceeds (score : Int) (highScore : Option Int) : Bool :=
  match highScore with
  | some h => decide (score > h)
  | none => false

/-- The method `endGame`. -/
def endGame (s : State) : State :=
  let s1 := { s with gameRunning := false, timers := clearInterval s.timers s.gameLoopId }
  let s2 := if exceeds s1.score s1.highScore then saveHighScore { s1 with highScore := some s1.score }
    else s1
  { s2 with modalShown := true, gameStatus := "Game Over! Press button to restart" }

/-- The method `restart`. -/
def restart (s : State) : Except Err State :=
  init { s with modalShown := false }

/-- The method `handleKeyPress`, given `event.key`. -/
def handleKeyPress (s : State) (eventKey : String) : State :=
  let key := toLowerCase eventKey
  if s.gameRunning = false ∧ (key = "arrowleft" ∨ key = "a") then s
  else
    let s1 :=
      if s.gameRunning = false then
        if key ∈ ["arrowup", "arrowdown", "arrowright", "w", "s", "d"] then
          startGameLoop { s with gameRunning := true }
        else s
      else s
    if key = "arrowup" ∨ key = "w" then
      if s1.direction.y = 0 then { s1 with nextDirection := { x := 0, y := -1 } } else s1
    else if key = "arrowdown" ∨ key = "s" then
      if s1.direction.y = 0 then { s1 with nextDirection := { x := 0, y := 1 } } else s1
    else if key = "arrowleft" ∨ key = "a" then
      if s1.direction.x = 0 then { s1 with nextDirection := { x := -1, y := 0 } } else s1
    else if key = "arrowright" ∨ key = "d" then
      if s1.direction.x = 0 then { s1 with nextDirection := { x := 1, y := 0 } } else s1
    else s1

/-- The method `update`. -/
def update (s : State) : Except Err State :=
  let s1 := { s with direction := s.nextDirection }
  match s1.snake.head? with
  | none => .error .typeError
  | some head =>
    let newHead : Cell := { x := head.x + s1.direction.x, y := head.y + s1.direction.y }
    if isWallCollision s1 newHead then .ok (endGame s1)
    else if isSelfCollision s1 newHead then .ok (endGame s1)
    else
      let s2 := { s1 with snake := newHead :: s1.snake }
      match s2.food with
      | none => .error .typeError
      | some food =>
        if isFoodCollision food newHead then
          spawnFood { s2 with score := s2.score + 10 }
        else .ok { s2 with snake := s2.snake.dropLast }

/-- A `keydown` event: the two listeners of `setupEventListeners` in the order
of their registration. -/
def keydown (s : State) (eventKey : String) : Except Err State :=
  let s1 := handleKeyPress s eventKey
  if eventKey = "Enter" ∧ s1.modalShown = true then restart s1 else .ok s1

/-- The constructor of `SnakeGame` up to and including its call of `init`, for
a canvas of `gridCount` cells per side, the given `localStorage` and the given
future of `Math.random()`.  No interval is scheduled and the modal is hidden. -/
def construct (gridCount : Int) (store : List (String × String))
    (random : List UnitSample) : Except Err State :=
  init
    { GRID_COUNT := gridCount
      snake := []
      food := none
      score := 0
      highScore := loadHighScore store
      gameRunning := false
      gamePaused := false
      direction := { x := 0, y := 0 }
      nextDirection := { x := 0, y := 0 }
      gameLoopId := none
      timers := []
      nextTimerId := 1
      modalShown := false
      gameStatus := ""
      localStorage := store
      random := random }

/-- The states that a game on a grid of `gridCount` cells per side can be in:
those produced by the constructor and then by any sequence of key events,
`update` calls and `restart` calls that return. -/
inductive Reachable (gridCount : Int) : State → Prop
  | construct {store random s} :
      construct gridCount store random = .ok s → Reachable gridCount s
  | handleKeyPress {s} (eventKey : String) :
      Reachable gridCount s → Reachable gridCount (handleKeyPress s eventKey)
  | update {s s1} :
      Reachable gridCount s → update s = .ok s1 → Reachable gridCount s1
  | restart {s s1} :
      Reachable gridCount s → restart s = .ok s1 → Reachable gridCount s1

/-- The cell drawn by one iteration of the loop of `spawnFood`. -/
def drawnCell (n : Int) (rx ry : UnitSample) : Cell :=
  { x := floorScale rx n, y := floorScale ry n }

/-- The cell `newHead` that `update` computes from the head of the snake: the
head moved by the pending direction, which `update` applies first. -/
def newHead (s : State) (head : Cell) : Cell :=
  { x := head.x + s.nextDirection.x, y := head.y + s.nextDirection.y }

/-- A state given by its grid size, snake, food, current and pending direction,
running flag and random tape: score 0, high score 0, no interval scheduled,
modal hidden, empty storage.  Used to write down concrete states. -/
def stateOf (n : Int) (snake : List Cell) (food dir next : Cell) (running : Bool)
    (random : List UnitSample) : State :=
  { GRID_COUNT := n
    snake := snake
    food := some food
    score := 0
    highScore := some 0
    gameRunning := running
    gamePaused := false
    direction := dir
    nextDirection := next
    gameLoopId := none
    timers := []
    nextTimerId := 1
    modalShown := false
    gameStatus := ""
    localStorage := []
    random := random }

/-- The sample `0`, which `floorScale` sends to coordinate `0`. -/
def sampleZero : UnitSample := ⟨0, 1, by decide⟩

/-- The sample `1 / 2`, which `floorScale` sends to the middle coordinate. -/
def sampleHalf : UnitSample := ⟨1, 2, by decide⟩

/-- The interval callback firing `n` times in a row: `n` calls of `update`. -/
def updates : Nat → State → Except Err State
  | 0, s => .ok s
  | n + 1, s =>
    match update s with
    | .ok s1 => updates n s1
    | .error e => .error e

/-- The values that `direction` and `nextDirection` take: the zero vector of
`init` and the four unit vectors assigned in `handleKeyPress`. -/
def isZeroOrUnit (d : Cell) : Prop :=
  d ∈ [(⟨0, 0⟩ : Cell), ⟨0, -1⟩, ⟨0, 1⟩, ⟨-1, 0⟩, ⟨1, 0⟩]

/-- The vector opposite to `d`. -/
def opposite (d : Cell) : Cell :=
  { x := -d.x, y := -d.y }

/-- The sample `k / (m + 1)`, with `k` taken modulo `m + 1`: on a grid of
`m + 1` cells per side `floorScale` sends it to the coordinate `k`. -/
def gridSample (m k : Nat) : UnitSample :=
  ⟨k % (m + 1), m + 1, Nat.mod_lt k (Nat.succ_pos m)⟩

/-- One call into the engine from outside: a key handled by `handleKeyPress`,
the interval callback calling `update`, or a call of `restart`. -/
inductive Step where
  | key (eventKey : String)
  | tick
  | restart

/-- The effect of one call on the state. -/
def step (s : State) : Step → Except Err State
  | .key eventKey => .ok (handleKeyPress s eventKey)
  | .tick => update s
  | .restart => restart s

/-- A sequence of calls, one after the other, stopping at the first that does
not return. -/
def run : List Step → State → Except Err State
  | [], s => .ok s
  | e :: es, s =>
    match step s e with
    | .ok s1 => run es s1
    | .error err => .error err

/-- The direction that a key asks for: the vector assigned to `nextDirection`
in the matching case of the `switch` of `handleKeyPress`. -/
def requestedDirection (eventKey : String) : Option Cell :=
  let key := toLowerCase eventKey
  if key = "arrowup" ∨ key = "w" then some { x := 0, y := -1 }
  else if key = "arrowdown" ∨ key = "s" then some { x := 0, y := 1 }
  else if key = "arrowleft" ∨ key = "a" then some { x := -1, y := 0 }
  else if key = "arrowright" ∨ key = "d" then some { x := 1, y := 0 }
  else none

/-! ## Collision tests and food spawning -/

theorem isSelfCollision_iff (s : State) (c : Cell) :
    isSelfCollision s c = true ↔ c ∈ s.snake := by
  unfold isSelfCollision
  rw [List.any_eq_true]
  constructor
  · rintro ⟨seg, hmem, h⟩
    simp only [Bool.and_eq_true, decide_eq_true_eq] at h
    have hc : seg = c := by
      cases seg; cases c; simp_all
    exact hc ▸ hmem
  · intro h
    exact ⟨c, h, by simp⟩

theorem isWallCollision_iff (s : State) (c : Cell) :
    isWallCollision s c = true ↔
      (c.x < 0 ∨ c.x ≥ s.GRID_COUNT ∨ c.y < 0 ∨ c.y ≥ s.GRID_COUNT) := by
  unfold isWallCollision
  simp only [Bool.or_eq_true, decide_eq_true_eq]
  tauto

theorem isFoodCollision_iff (food c : Cell) :
    isFoodCollision food c = true ↔ c = food := by
  unfold isFoodCollision
  cases food; cases c
  simp

theorem any_coord_iff (snake : List Cell) (c : Cell) :
    (snake.any fun segment => decide (segment.x = c.x) && decide (segment.y = c.y)) = true ↔
      c ∈ snake := by
  rw [List.any_eq_true]
  constructor
  · rintro ⟨seg, hmem, h⟩
    simp only [Bool.and_eq_true, decide_eq_true_eq] at h
    have hc : seg = c := by
      cases seg; cases c; simp_all
    exact hc ▸ hmem
  · intro h
    exact ⟨c, h, by simp⟩

theorem spawnFoodLoop_cons (n : Int) (snake : List Cell) (rx ry : UnitSample)
    (rest : List UnitSample) :
    spawnFoodLoop n snake (rx :: ry :: rest) =
      if drawnCell n rx ry ∈ snake then spawnFoodLoop n snake rest
      else some (drawnCell n rx ry, rest) := by
  rw [spawnFoodLoop]
  by_cases h : drawnCell n rx ry ∈ snake
  · have h1 := (any_coord_iff snake (drawnCell n rx ry)).2 h
    simp only [drawnCell] at h1
    rw [if_pos h]
    simp [h1]
  · have h1 : ¬ _ := fun h2 => h ((any_coord_iff snake (drawnCell n rx ry)).1 h2)
    simp only [drawnCell, Bool.not_eq_true] at h1
    rw [if_neg h]
    simp [h1, drawnCell]

theorem spawnFoodLoop_not_mem (n : Int) (snake : List Cell) :
    ∀ (k : Nat) (tape : List UnitSample), tape.length ≤ k → ∀ c rest,
      spawnFoodLoop n snake tape = some (c, rest) → c ∉ snake := by
  intro k
  induction k with
  | zero =>
    intro tape hk c rest h
    have : tape = [] := List.length_eq_zero.1 (Nat.le_zero.1 hk)
    subst this
    simp [spawnFoodLoop] at h
  | succ k ih =>
    intro tape hk c rest h
    match tape, hk, h with
    | [], _, h => simp [spawnFoodLoop] at h
    | [_], _, h => simp [spawnFoodLoop] at h
    | rx :: ry :: tl, hk, h =>
      rw [spawnFoodLoop_cons] at h
      by_cases hm : drawnCell n rx ry ∈ snake
      · rw [if_pos hm] at h
        exact ih tl (by simp at hk; omega) c rest h
      · rw [if_neg hm] at h
        simp only [Option.some.injEq, Prod.mk.injEq] at h
        exact h.1 ▸ hm

theorem spawnFoodLoop_exits (n : Int) (snake : List Cell) :
    ∀ (k : Nat) (pre : List UnitSample), pre.length = 2 * k →
      ∀ rx ry rest, drawnCell n rx ry ∉ snake →
        ∃ c tl, spawnFoodLoop n snake (pre ++ rx :: ry :: rest) = some (c, tl) := by
  intro k
  induction k with
  | zero =>
    intro pre hk rx ry rest hfree
    have : pre = [] := List.length_eq_zero.1 (by omega)
    subst this
    exact ⟨_, _, by rw [List.nil_append, spawnFoodLoop_cons, if_neg hfree]⟩
  | succ k ih =>
    intro pre hk rx ry rest hfree
    match pre, hk with
    | [], hk => simp at hk
    | [_], hk => simp at hk; omega
    | a :: b :: tl, hk =>
      have hlen : tl.length = 2 * k := by simp at hk; omega
      show ∃ c tl1, spawnFoodLoop n snake (a :: b :: (tl ++ rx :: ry :: rest)) = some (c, tl1)
      rw [spawnFoodLoop_cons]
      by_cases hm : drawnCell n a b ∈ snake
      · rw [if_pos hm]
        exact ih tl hlen rx ry rest hfree
      · rw [if_neg hm]
        exact ⟨_, _, rfl⟩

theorem spawnFood_ok {s s1 : State} (h : spawnFood s = .ok s1) :
    ∃ c rest, c ∉ s.snake ∧ s1 = { s with food := some c, random := rest } := by
  unfold spawnFood at h
  cases hl : spawnFoodLoop s.GRID_COUNT s.snake s.random with
  | none => rw [hl] at h; cases h
  | some p =>
    obtain ⟨c, rest⟩ := p
    rw [hl] at h
    simp only [Except.ok.injEq] at h
    exact ⟨c, rest, spawnFoodLoop_not_mem _ _ _ _ (le_refl _) c rest hl, h.symm⟩

/-! ## The update step -/

theorem update_cons (s : State) (head : Cell) (rest : List Cell)
    (hsnake : s.snake = head :: rest) :
    update s =
      if isWallCollision s (newHead s head) = true ∨ isSelfCollision s (newHead s head) = true then
        .ok (endGame { s with direction := s.nextDirection })
      else
        match s.food with
        | none => .error .typeError
        | some food =>
          if newHead s head = food then
            spawnFood { s with
              direction := s.nextDirection
              snake := newHead s head :: s.snake
              score := s.score + 10 }
          else
            .ok { s with
              direction := s.nextDirection
              snake := (newHead s head :: s.snake).dropLast } := by
  unfold update
  simp only [hsnake, List.head?_cons, isWallCollision_iff, isSelfCollision_iff,
    isFoodCollision_iff, newHead]
  split_ifs <;> first | rfl | (exfalso; tauto)

theorem endGame_frame (s : State) :
    (endGame s).gameRunning = false ∧ (endGame s).modalShown = true ∧
      (endGame s).snake = s.snake ∧ (endGame s).food = s.food ∧
      (endGame s).score = s.score ∧ (endGame s).direction = s.direction ∧
      (endGame s).nextDirection = s.nextDirection ∧
      (endGame s).GRID_COUNT = s.GRID_COUNT ∧ (endGame s).random = s.random := by
  by_cases h : exceeds s.score s.highScore = true <;> simp [endGame, saveHighScore, h]

/-- C1. When the new head (head plus pending direction) is inside the grid and
on no snake cell, `update` moves the snake.  If the new head is the food cell,
every returned state has the new head prepended to the old snake (one cell
longer) and the score raised by exactly 10, and `update` does return as soon as
the random tape holds, at an even offset, a draw off the grown snake.
Otherwise `update` returns the state with the new head prepended and the last
cell dropped (same length) and nothing else but the applied direction changed,
so the score is unchanged. -/
theorem update_advances (s : State) (head food : Cell) (rest : List Cell)
    (hsnake : s.snake = head :: rest) (hfood : s.food = some food)
    (hin : 0 ≤ (newHead s head).x ∧ (newHead s head).x < s.GRID_COUNT ∧
      0 ≤ (newHead s head).y ∧ (newHead s head).y < s.GRID_COUNT)
    (hfree : ∀ seg ∈ s.snake, seg ≠ newHead s head) :
    (newHead s head = food →
      (∀ s1, update s = .ok s1 →
        s1.snake = newHead s head :: s.snake ∧ s1.snake.length = s.snake.length + 1 ∧
          s1.score = s.score + 10) ∧
      (∀ pre rx ry tl, s.random = pre ++ rx :: ry :: tl → Even pre.length →
        drawnCell s.GRID_COUNT rx ry ∉ newHead s head :: s.snake →
          ∃ s1, update s = .ok s1)) ∧
    (newHead s head ≠ food →
      update s = .ok { s with
        direction := s.nextDirection
        snake := newHead s head :: s.snake.dropLast } ∧
      (newHead s head :: s.snake.dropLast).length = s.snake.length ∧
      ∀ s1, update s = .ok s1 → s1.score = s.score) := by
  have hw : ¬ isWallCollision s (newHead s head) = true := by
    rw [isWallCollision_iff]; omega
  have hs : ¬ isSelfCollision s (newHead s head) = true := by
    rw [isSelfCollision_iff]; exact fun h => hfree _ h rfl
  have hupd := update_cons s head rest hsnake
  rw [if_neg (by tauto), hfood] at hupd
  simp only at hupd
  refine ⟨fun heq => ?_, fun hne => ?_⟩
  · rw [if_pos heq] at hupd
    refine ⟨fun s1 h1 => ?_, fun pre rx ry tl htape heven hdraw => ?_⟩
    · rw [hupd] at h1
      obtain ⟨c, tape, -, rfl⟩ := spawnFood_ok h1
      exact ⟨rfl, by simp, rfl⟩
    · obtain ⟨k, hk⟩ := heven
      obtain ⟨c, tape, hloop⟩ := spawnFoodLoop_exits s.GRID_COUNT (newHead s head :: s.snake) k
        pre (by omega) rx ry tl hdraw
      rw [hupd]
      unfold spawnFood
      simp only [htape, hloop]
      exact ⟨_, rfl⟩
  · rw [if_neg hne] at hupd
    have hdrop : (newHead s head :: s.snake).dropLast = newHead s head :: s.snake.dropLast := by
      rw [hsnake]; rfl
    rw [hdrop] at hupd
    refine ⟨by rw [hfood]; exact hupd, ?_, fun s1 h1 => ?_⟩
    · rw [hsnake]; simp
    · rw [hupd] at h1
      simp only [Except.ok.injEq] at h1
      rw [← h1]

/-- C1, at concrete inputs on a 30 by 30 grid.  A snake heading right onto the
food at (16, 15) grows to four cells and scores 10, the next food being drawn
at (0, 0); the same snake with the food elsewhere keeps three cells. -/
theorem update_advances_witness :
    (∃ s1, update (stateOf 30 [⟨15, 15⟩, ⟨14, 15⟩, ⟨13, 15⟩] ⟨16, 15⟩ ⟨1, 0⟩ ⟨1, 0⟩ true
        [sampleZero, sampleZero]) = .ok s1 ∧
      s1.snake = [⟨16, 15⟩, ⟨15, 15⟩, ⟨14, 15⟩, ⟨13, 15⟩] ∧ s1.score = 10) ∧
    update (stateOf 30 [⟨15, 15⟩, ⟨14, 15⟩, ⟨13, 15⟩] ⟨3, 3⟩ ⟨1, 0⟩ ⟨1, 0⟩ true []) =
      .ok (stateOf 30 [⟨16, 15⟩, ⟨15, 15⟩, ⟨14, 15⟩] ⟨3, 3⟩ ⟨1, 0⟩ ⟨1, 0⟩ true []) := by
  constructor
  · have h := (update_advances
      (stateOf 30 [⟨15, 15⟩, ⟨14, 15⟩, ⟨13, 15⟩] ⟨16, 15⟩ ⟨1, 0⟩ ⟨1, 0⟩ true
        [sampleZero, sampleZero])
      ⟨15, 15⟩ ⟨16, 15⟩ [⟨14, 15⟩, ⟨13, 15⟩] rfl rfl (by decide) (by decide)).1 rfl
    obtain ⟨s1, h1⟩ := h.2 [] sampleZero sampleZero [] rfl (by decide) (by decide)
    obtain ⟨h2, -, h3⟩ := h.1 s1 h1
    exact ⟨s1, h1, h2, h3⟩
  · exact ((update_advances
      (stateOf 30 [⟨15, 15⟩, ⟨14, 15⟩, ⟨13, 15⟩] ⟨3, 3⟩ ⟨1, 0⟩ ⟨1, 0⟩ true [])
      ⟨15, 15⟩ ⟨3, 3⟩ [⟨14, 15⟩, ⟨13, 15⟩] rfl rfl (by decide) (by decide)).2 (by decide)).1

/-- C2. When the new head (head plus pending direction) has x < 0, x >= N,
y < 0 or y >= N, `update` returns the state that `endGame` produces: the game
is over (not running, game-over modal shown) and the snake, the food and the
score are exactly those before the call. -/
theorem update_wall_collision (s : State) (head : Cell) (rest : List Cell)
    (hsnake : s.snake = head :: rest)
    (hwall : (newHead s head).x < 0 ∨ (newHead s head).x ≥ s.GRID_COUNT ∨
      (newHead s head).y < 0 ∨ (newHead s head).y ≥ s.GRID_COUNT) :
    ∃ s1, update s = .ok s1 ∧ s1 = endGame { s with direction := s.nextDirection } ∧
      s1.gameRunning = false ∧ s1.modalShown = true ∧
      s1.snake = s.snake ∧ s1.food = s.food ∧ s1.score = s.score := by
  have hupd := update_cons s head rest hsnake
  rw [if_pos (Or.inl ((isWallCollision_iff s _).2 hwall))] at hupd
  obtain ⟨h1, h2, h3, h4, h5, -⟩ := endGame_frame { s with direction := s.nextDirection }
  exact ⟨_, hupd, rfl, h1, h2, h3, h4, h5⟩

/-- C2, at a concrete input: a snake whose head is at x = 0 with pending
direction Left ends the game and keeps its three cells. -/
theorem update_wall_collision_witness :
    ∃ s1, update (stateOf 30 [⟨0, 5⟩, ⟨0, 6⟩, ⟨0, 7⟩] ⟨3, 3⟩ ⟨0, -1⟩ ⟨-1, 0⟩ true []) = .ok s1 ∧
      s1.gameRunning = false ∧ s1.snake = [⟨0, 5⟩, ⟨0, 6⟩, ⟨0, 7⟩] ∧
      s1.food = some ⟨3, 3⟩ ∧ s1.score = 0 := by
  obtain ⟨s1, h1, -, h2, -, h3, h4, h5⟩ := update_wall_collision
    (stateOf 30 [⟨0, 5⟩, ⟨0, 6⟩, ⟨0, 7⟩] ⟨3, 3⟩ ⟨0, -1⟩ ⟨-1, 0⟩ true [])
    ⟨0, 5⟩ [⟨0, 6⟩, ⟨0, 7⟩] rfl (Or.inl (by decide))
  exact ⟨s1, h1, h2, h3, h4, h5⟩

/-- C3. When the new head (head plus pending direction) is inside the grid
and is a cell of the snake as it is before the move (the head and the last
cell included), `update` returns the state that `endGame` produces: the game
is over and the snake, the food and the score are unchanged. -/
theorem update_self_collision (s : State) (head : Cell) (rest : List Cell)
    (hsnake : s.snake = head :: rest)
    (hin : 0 ≤ (newHead s head).x ∧ (newHead s head).x < s.GRID_COUNT ∧
      0 ≤ (newHead s head).y ∧ (newHead s head).y < s.GRID_COUNT)
    (hhit : newHead s head ∈ s.snake) :
    isWallCollision s (newHead s head) = false ∧
    ∃ s1, update s = .ok s1 ∧ s1 = endGame { s with direction := s.nextDirection } ∧
      s1.gameRunning = false ∧ s1.modalShown = true ∧
      s1.snake = s.snake ∧ s1.food = s.food ∧ s1.score = s.score := by
  have hw : isWallCollision s (newHead s head) = false := by
    rw [← Bool.not_eq_true, isWallCollision_iff]; omega
  have hupd := update_cons s head rest hsnake
  rw [if_pos (Or.inr ((isSelfCollision_iff s _).2 hhit))] at hupd
  obtain ⟨h1, h2, h3, h4, h5, -⟩ := endGame_frame { s with direction := s.nextDirection }
  exact ⟨hw, _, hupd, rfl, h1, h2, h3, h4, h5⟩

/-- C3, at a concrete input: a four-cell snake curled in a square turns right
into the cell (2, 1) that its last segment occupies; the game ends and the
snake keeps all four cells, the last one included. -/
theorem update_self_collision_witness :
    [(⟨1, 1⟩ : Cell), ⟨1, 2⟩, ⟨2, 2⟩, ⟨2, 1⟩].getLast? = some ⟨2, 1⟩ ∧
    ∃ s1, update (stateOf 30 [⟨1, 1⟩, ⟨1, 2⟩, ⟨2, 2⟩, ⟨2, 1⟩] ⟨3, 3⟩ ⟨0, -1⟩ ⟨1, 0⟩ true [])
        = .ok s1 ∧
      s1.gameRunning = false ∧ s1.snake = [⟨1, 1⟩, ⟨1, 2⟩, ⟨2, 2⟩, ⟨2, 1⟩] ∧
      s1.food = some ⟨3, 3⟩ ∧ s1.score = 0 := by
  refine ⟨rfl, ?_⟩
  obtain ⟨-, s1, h1, -, h2, -, h3, h4, h5⟩ := update_self_collision
    (stateOf 30 [⟨1, 1⟩, ⟨1, 2⟩, ⟨2, 2⟩, ⟨2, 1⟩] ⟨3, 3⟩ ⟨0, -1⟩ ⟨1, 0⟩ true [])
    ⟨1, 1⟩ [⟨1, 2⟩, ⟨2, 2⟩, ⟨2, 1⟩] rfl (by decide) (by decide)
  exact ⟨s1, h1, h2, h3, h4, h5⟩

/-! ## Key handling -/

theorem handleKeyPress_of_request (s : State) (eventKey : String) (v : Cell)
    (h : requestedDirection eventKey = some v) :
    handleKeyPress s eventKey =
      if s.gameRunning = false ∧ v = ⟨-1, 0⟩ then s
      else if (v.x = 0 ∧ s.direction.y = 0) ∨ (v.y = 0 ∧ s.direction.x = 0) then
        { (if s.gameRunning = false then startGameLoop { s with gameRunning := true } else s) with
          nextDirection := v }
      else if s.gameRunning = false then startGameLoop { s with gameRunning := true } else s := by
  unfold requestedDirection at h
  unfold handleKeyPress
  generalize toLowerCase eventKey = key at h ⊢
  simp only at h ⊢
  by_cases hu : key = "arrowup" ∨ key = "w"
  · rw [if_pos hu] at h
    cases h
    rcases hu with rfl | rfl <;> cases hr : s.gameRunning <;>
      by_cases hd : s.direction.y = 0 <;> simp [hr, hd, startGameLoop]
  · rw [if_neg hu] at h
    by_cases hdn : key = "arrowdown" ∨ key = "s"
    · rw [if_pos hdn] at h
      cases h
      rcases hdn with rfl | rfl <;> cases hr : s.gameRunning <;>
        by_cases hd : s.direction.y = 0 <;> simp [hr, hd, startGameLoop]
    · rw [if_neg hdn] at h
      by_cases hl : key = "arrowleft" ∨ key = "a"
      · rw [if_pos hl] at h
        cases h
        rcases hl with rfl | rfl <;> cases hr : s.gameRunning <;>
          by_cases hd : s.direction.x = 0 <;> simp [hr, hd, startGameLoop]
      · rw [if_neg hl] at h
        by_cases hrt : key = "arrowright" ∨ key = "d"
        · rw [if_pos hrt] at h
          cases h
          rcases hrt with rfl | rfl <;> cases hr : s.gameRunning <;>
            by_cases hd : s.direction.x = 0 <;> simp [hr, hd, startGameLoop]
        · rw [if_neg hrt] at h
          cases h

theorem handleKeyPress_of_no_request (s : State) (eventKey : String)
    (h : requestedDirection eventKey = none) :
    handleKeyPress s eventKey = s := by
  unfold requestedDirection at h
  unfold handleKeyPress
  generalize toLowerCase eventKey = key at h ⊢
  simp only at h ⊢
  split_ifs at h
  have h1 : ¬ (key = "arrowleft" ∨ key = "a") := by assumption
  have h2 : ¬ (key = "arrowup" ∨ key = "w") := by assumption
  have h3 : ¬ (key = "arrowdown" ∨ key = "s") := by assumption
  have h4 : ¬ (key = "arrowright" ∨ key = "d") := by assumption
  have h5 : key ∉ ["arrowup", "arrowdown", "arrowright", "w", "s", "d"] := by
    simp only [List.mem_cons, List.mem_singleton, List.not_mem_nil, or_false]
    tauto
  simp [h1, h2, h3, h4, h5]

/-- C4, the code at a game that is over.  On a 30 by 30 grid the constructed
game is started with key d and runs right into the wall on the fifteenth
update: the game is over, its modal is shown and no interval is left.  The key
ArrowUp then sets the game running again and schedules a new interval, with
the modal still shown, and the next update moves the snake. -/
theorem key_after_game_over_resumes :
    ∃ s0 sOver s2, construct 30 [] [sampleZero, sampleZero] = .ok s0 ∧
      updates 15 (handleKeyPress s0 "d") = .ok sOver ∧
      sOver.gameRunning = false ∧ sOver.modalShown = true ∧ sOver.timers = [] ∧
      sOver.gameStatus = "Game Over! Press button to restart" ∧
      sOver.snake = [⟨29, 15⟩, ⟨28, 15⟩, ⟨27, 15⟩] ∧
      (handleKeyPress sOver "ArrowUp").gameRunning = true ∧
      (handleKeyPress sOver "ArrowUp").timers = [2] ∧
      (handleKeyPress sOver "ArrowUp").modalShown = true ∧
      update (handleKeyPress sOver "ArrowUp") = .ok s2 ∧
      s2.gameRunning = true ∧ s2.snake = [⟨29, 14⟩, ⟨29, 15⟩, ⟨28, 15⟩] :=
  ⟨_, _, _, rfl, rfl, rfl, rfl, rfl, rfl, rfl, rfl, rfl, rfl, rfl, rfl, rfl⟩

theorem requestedDirection_unit {eventKey : String} {v : Cell}
    (h : requestedDirection eventKey = some v) :
    v = ⟨0, -1⟩ ∨ v = ⟨0, 1⟩ ∨ v = ⟨-1, 0⟩ ∨ v = ⟨1, 0⟩ := by
  unfold requestedDirection at h
  simp only at h
  split_ifs at h <;> cases h <;> simp

theorem handleKeyPress_frame (s : State) (eventKey : String) :
    (handleKeyPress s eventKey).snake = s.snake ∧
      (handleKeyPress s eventKey).food = s.food ∧
      (handleKeyPress s eventKey).score = s.score ∧
      (handleKeyPress s eventKey).direction = s.direction ∧
      (handleKeyPress s eventKey).GRID_COUNT = s.GRID_COUNT ∧
      (s.gameRunning = true → (handleKeyPress s eventKey).gameRunning = true) := by
  cases hreq : requestedDirection eventKey with
  | none => rw [handleKeyPress_of_no_request s eventKey hreq]; simp
  | some v =>
    rw [handleKeyPress_of_request s eventKey v hreq]
    split_ifs <;> simp_all [startGameLoop]

theorem update_direction {s s1 : State} (h : update s = .ok s1) :
    s1.direction = s.nextDirection := by
  cases hsnake : s.snake with
  | nil => simp [update, hsnake] at h
  | cons head rest =>
    rw [update_cons s head rest hsnake] at h
    split_ifs at h
    · simp only [Except.ok.injEq] at h
      rw [← h]
      exact (endGame_frame _).2.2.2.2.2.1
    · cases hf : s.food with
      | none => simp [hf] at h
      | some food =>
        simp only [hf] at h
        split_ifs at h
        · obtain ⟨c, tape, -, rfl⟩ := spawnFood_ok h
          rfl
        · simp only [Except.ok.injEq] at h
          rw [← h]

/-- C5. A key that asks for the direction opposite to the current direction
leaves the pending direction unchanged, whatever the state; hence the new head
that the next update computes is the same as without the key, and any state
that this update returns carries as applied direction the pending direction
from before the key. -/
theorem reverse_request_ignored (s : State) (eventKey : String) (v : Cell)
    (hreq : requestedDirection eventKey = some v) (hopp : v = opposite s.direction) :
    (handleKeyPress s eventKey).nextDirection = s.nextDirection ∧
      (∀ head, newHead (handleKeyPress s eventKey) head = newHead s head) ∧
      ∀ s1, update (handleKeyPress s eventKey) = .ok s1 → s1.direction = s.nextDirection := by
  have hnext : (handleKeyPress s eventKey).nextDirection = s.nextDirection := by
    rw [handleKeyPress_of_request s eventKey v hreq]
    have hx : v.x = -s.direction.x := by rw [hopp]; rfl
    have hy : v.y = -s.direction.y := by rw [hopp]; rfl
    have hperp : ¬ ((v.x = 0 ∧ s.direction.y = 0) ∨ (v.y = 0 ∧ s.direction.x = 0)) := by
      rcases requestedDirection_unit hreq with h | h | h | h <;> subst h <;>
        simp only at hx hy ⊢ <;> omega
    rw [if_neg hperp]
    split_ifs <;> simp [startGameLoop]
  refine ⟨hnext, fun head => ?_, fun s1 h1 => ?_⟩
  · simp only [newHead, hnext]
  · rw [update_direction h1, hnext]

/-- C5, at a concrete input: a three-cell snake moving Right receives
ArrowLeft; the pending direction stays Right and the next update moves the
head from (15, 15) to (16, 15). -/
theorem reverse_request_ignored_witness :
    (handleKeyPress (stateOf 30 [⟨15, 15⟩, ⟨14, 15⟩, ⟨13, 15⟩] ⟨3, 3⟩ ⟨1, 0⟩ ⟨1, 0⟩ true [])
        "ArrowLeft").nextDirection = ⟨1, 0⟩ ∧
      update (handleKeyPress
        (stateOf 30 [⟨15, 15⟩, ⟨14, 15⟩, ⟨13, 15⟩] ⟨3, 3⟩ ⟨1, 0⟩ ⟨1, 0⟩ true []) "ArrowLeft") =
        .ok (stateOf 30 [⟨16, 15⟩, ⟨15, 15⟩, ⟨14, 15⟩] ⟨3, 3⟩ ⟨1, 0⟩ ⟨1, 0⟩ true []) :=
  ⟨(reverse_request_ignored
      (stateOf 30 [⟨15, 15⟩, ⟨14, 15⟩, ⟨13, 15⟩] ⟨3, 3⟩ ⟨1, 0⟩ ⟨1, 0⟩ true [])
      "ArrowLeft" ⟨-1, 0⟩ (by decide) (by decide)).1, rfl⟩

/-- C6. In a state that is not running and whose current direction is zero
(in particular the state that `init` leaves), a key that asks for Left leaves
the whole state unchanged, so no interval is scheduled; a key that asks for Up,
Down or Right sets the game running, schedules one new interval, records its id
and sets the pending direction to the requested one, changing nothing else but
the status text. -/
theorem idle_key_press (s : State) (eventKey : String) (v : Cell)
    (hidle : s.gameRunning = false) (hdir : s.direction = ⟨0, 0⟩)
    (hreq : requestedDirection eventKey = some v) :
    (v = ⟨-1, 0⟩ → handleKeyPress s eventKey = s) ∧
    (v ≠ ⟨-1, 0⟩ →
      handleKeyPress s eventKey =
        { s with
          gameRunning := true
          gameLoopId := some s.nextTimerId
          timers := s.nextTimerId :: s.timers
          nextTimerId := s.nextTimerId + 1
          gameStatus := "Game Running..."
          nextDirection := v }) := by
  rw [handleKeyPress_of_request s eventKey v hreq]
  refine ⟨fun hv => by rw [if_pos ⟨hidle, hv⟩], fun hv => ?_⟩
  have hperp : (v.x = 0 ∧ s.direction.y = 0) ∨ (v.y = 0 ∧ s.direction.x = 0) := by
    rw [hdir]
    rcases requestedDirection_unit hreq with h | h | h | h <;> subst h <;> simp
  rw [if_neg (fun h => hv h.2), if_pos hperp, if_pos hidle]
  rfl

/-- C6, at the state that the constructor leaves on a 30 by 30 grid: ArrowLeft
and a change nothing; ArrowUp, s and d start the game with pending direction
Up, Down and Right. -/
theorem idle_key_press_witness :
    handleKeyPress (stateOf 30 [⟨15, 15⟩, ⟨14, 15⟩, ⟨13, 15⟩] ⟨0, 0⟩ ⟨0, 0⟩ ⟨0, 0⟩ false [])
        "ArrowLeft" =
      stateOf 30 [⟨15, 15⟩, ⟨14, 15⟩, ⟨13, 15⟩] ⟨0, 0⟩ ⟨0, 0⟩ ⟨0, 0⟩ false [] ∧
    handleKeyPress (stateOf 30 [⟨15, 15⟩, ⟨14, 15⟩, ⟨13, 15⟩] ⟨0, 0⟩ ⟨0, 0⟩ ⟨0, 0⟩ false [])
        "a" =
      stateOf 30 [⟨15, 15⟩, ⟨14, 15⟩, ⟨13, 15⟩] ⟨0, 0⟩ ⟨0, 0⟩ ⟨0, 0⟩ false [] ∧
    (handleKeyPress (stateOf 30 [⟨15, 15⟩, ⟨14, 15⟩, ⟨13, 15⟩] ⟨0, 0⟩ ⟨0, 0⟩ ⟨0, 0⟩ false [])
        "ArrowUp").nextDirection = ⟨0, -1⟩ ∧
    (handleKeyPress (stateOf 30 [⟨15, 15⟩, ⟨14, 15⟩, ⟨13, 15⟩] ⟨0, 0⟩ ⟨0, 0⟩ ⟨0, 0⟩ false [])
        "s").nextDirection = ⟨0, 1⟩ ∧
    (handleKeyPress (stateOf 30 [⟨15, 15⟩, ⟨14, 15⟩, ⟨13, 15⟩] ⟨0, 0⟩ ⟨0, 0⟩ ⟨0, 0⟩ false [])
        "d").timers = [1] := by
  refine ⟨?_, ?_, ?_, ?_, ?_⟩
  · exact (idle_key_press _ "ArrowLeft" ⟨-1, 0⟩ rfl rfl (by decide)).1 rfl
  · exact (idle_key_press _ "a" ⟨-1, 0⟩ rfl rfl (by decide)).1 rfl
  · rw [(idle_key_press _ "ArrowUp" ⟨0, -1⟩ rfl rfl (by decide)).2 (by decide)]
  · rw [(idle_key_press _ "s" ⟨0, 1⟩ rfl rfl (by decide)).2 (by decide)]
  · rw [(idle_key_press _ "d" ⟨1, 0⟩ rfl rfl (by decide)).2 (by decide)]
    rfl

/-- C7, the code at two keys before the first update.  On a 30 by 30 grid the
constructed game receives ArrowUp, which starts it, and then ArrowLeft before
the interval fires: the game is running, the interval is scheduled and the
pending direction is Left.  The first update applies Left, its new head
(14, 15) is the second segment of the snake, and the game ends by
self-collision with the snake unmoved. -/
theorem first_move_reverses_into_snake :
    ∃ s0 s1, construct 30 [] [sampleZero, sampleZero] = .ok s0 ∧
      s0.snake = [⟨15, 15⟩, ⟨14, 15⟩, ⟨13, 15⟩] ∧
      (handleKeyPress (handleKeyPress s0 "ArrowUp") "ArrowLeft").gameRunning = true ∧
      (handleKeyPress (handleKeyPress s0 "ArrowUp") "ArrowLeft").timers = [1] ∧
      (handleKeyPress (handleKeyPress s0 "ArrowUp") "ArrowLeft").nextDirection = ⟨-1, 0⟩ ∧
      newHead (handleKeyPress (handleKeyPress s0 "ArrowUp") "ArrowLeft") ⟨15, 15⟩ = ⟨14, 15⟩ ∧
      isWallCollision (handleKeyPress (handleKeyPress s0 "ArrowUp") "ArrowLeft") ⟨14, 15⟩
        = false ∧
      isSelfCollision (handleKeyPress (handleKeyPress s0 "ArrowUp") "ArrowLeft") ⟨14, 15⟩
        = true ∧
      update (handleKeyPress (handleKeyPress s0 "ArrowUp") "ArrowLeft") = .ok s1 ∧
      s1.direction = ⟨-1, 0⟩ ∧ s1.gameRunning = false ∧ s1.modalShown = true ∧
      s1.snake = [⟨15, 15⟩, ⟨14, 15⟩, ⟨13, 15⟩] :=
  ⟨_, _, rfl, rfl, rfl, rfl, rfl, rfl, rfl, rfl, rfl, rfl, rfl, rfl, rfl⟩

/-- C8 as stated fails.  A running snake moving Right receives ArrowUp and then
ArrowRight; neither asks for the reverse of Right, the last request is Right,
and the pending direction after the two keys is Up: the request for the
current direction itself does not overwrite the buffer. -/
theorem last_request_not_always_pending :
    ¬ ∀ (s : State) (keys : List String) (last : Cell), s.gameRunning = true →
        (∀ k ∈ keys, ∃ v, requestedDirection k = some v ∧ v ≠ opposite s.direction) →
        keys.getLast?.bind requestedDirection = some last →
        (keys.foldl handleKeyPress s).nextDirection = last := by
  intro h
  have h1 := h (stateOf 30 [⟨15, 15⟩, ⟨14, 15⟩, ⟨13, 15⟩] ⟨3, 3⟩ ⟨1, 0⟩ ⟨1, 0⟩ true [])
    ["ArrowUp", "ArrowRight"] ⟨1, 0⟩ rfl
    (by
      intro k hk
      simp only [List.mem_cons, List.mem_singleton, List.not_mem_nil, or_false] at hk
      rcases hk with rfl | rfl
      · exact ⟨⟨0, -1⟩, by decide, by decide⟩
      · exact ⟨⟨1, 0⟩, by decide, by decide⟩)
    (by decide)
  revert h1
  decide

theorem foldl_handleKeyPress_frame (keys : List String) :
    ∀ s : State, s.gameRunning = true →
      (keys.foldl handleKeyPress s).direction = s.direction ∧
        (keys.foldl handleKeyPress s).gameRunning = true := by
  induction keys with
  | nil => intro s hs; exact ⟨rfl, hs⟩
  | cons k ks ih =>
    intro s hs
    obtain ⟨-, -, -, hd, -, hr⟩ := handleKeyPress_frame s k
    obtain ⟨h1, h2⟩ := ih (handleKeyPress s k) (hr hs)
    exact ⟨by rw [List.foldl_cons, h1, hd], by rw [List.foldl_cons, h2]⟩

/-- C8, amended.  While the game is running and its current direction is zero
or a unit step, for every sequence of keys ending in a request `last`, each
key asking for a direction that is neither the reverse of the current
direction nor the current direction itself, the pending direction after the
sequence is `last`; the new head of the next update is the head moved by
`last`, and any state that this update returns has `last` as its applied
direction. -/
theorem last_request_is_pending (s : State) (keys : List String) (k : String) (last : Cell)
    (hrun : s.gameRunning = true) (hdir : isZeroOrUnit s.direction)
    (hkeys : ∀ j ∈ keys ++ [k], ∃ v, requestedDirection j = some v ∧
      v ≠ opposite s.direction ∧ v ≠ s.direction)
    (hlast : requestedDirection k = some last) :
    ((keys ++ [k]).foldl handleKeyPress s).nextDirection = last ∧
      (∀ head, newHead ((keys ++ [k]).foldl handleKeyPress s) head =
        ⟨head.x + last.x, head.y + last.y⟩) ∧
      ∀ s1, update ((keys ++ [k]).foldl handleKeyPress s) = .ok s1 → s1.direction = last := by
  have hnext : ((keys ++ [k]).foldl handleKeyPress s).nextDirection = last := by
    rw [List.foldl_append, List.foldl_cons, List.foldl_nil]
    obtain ⟨hd, hr⟩ := foldl_handleKeyPress_frame keys s hrun
    rw [handleKeyPress_of_request _ k last hlast]
    obtain ⟨v, hv, hne1, hne2⟩ := hkeys k (by simp)
    rw [hlast] at hv
    cases hv
    have hperp : (last.x = 0 ∧ s.direction.y = 0) ∨ (last.y = 0 ∧ s.direction.x = 0) := by
      unfold isZeroOrUnit at hdir
      simp only [List.mem_cons, List.mem_singleton, List.not_mem_nil, or_false] at hdir
      rcases requestedDirection_unit hlast with h | h | h | h <;> subst h <;>
        rcases hdir with h | h | h | h | h <;> rw [h] at hne1 hne2 ⊢ <;>
        simp [opposite] at hne1 hne2 ⊢
    rw [if_neg (by rw [hr]; simp), hd, if_pos hperp, if_neg (by rw [hr]; simp)]
  refine ⟨hnext, fun head => ?_, fun s1 h1 => ?_⟩
  · simp only [newHead, hnext]
  · rw [update_direction h1, hnext]

/-- C8 amended, at a concrete input: a running snake moving Right receives
ArrowUp and then ArrowDown; the pending direction is Down and the next update
moves the head from (15, 15) to (15, 16). -/
theorem last_request_is_pending_witness :
    (["ArrowUp", "ArrowDown"].foldl handleKeyPress
        (stateOf 30 [⟨15, 15⟩, ⟨14, 15⟩, ⟨13, 15⟩] ⟨3, 3⟩ ⟨1, 0⟩ ⟨1, 0⟩ true [])).nextDirection
        = ⟨0, 1⟩ ∧
      update (["ArrowUp", "ArrowDown"].foldl handleKeyPress
        (stateOf 30 [⟨15, 15⟩, ⟨14, 15⟩, ⟨13, 15⟩] ⟨3, 3⟩ ⟨1, 0⟩ ⟨1, 0⟩ true [])) =
        .ok (stateOf 30 [⟨15, 16⟩, ⟨15, 15⟩, ⟨14, 15⟩] ⟨3, 3⟩ ⟨0, 1⟩ ⟨0, 1⟩ true []) :=
  ⟨(last_request_is_pending
      (stateOf 30 [⟨15, 15⟩, ⟨14, 15⟩, ⟨13, 15⟩] ⟨3, 3⟩ ⟨1, 0⟩ ⟨1, 0⟩ true [])
      ["ArrowUp"] "ArrowDown" ⟨0, 1⟩ rfl (by unfold isZeroOrUnit; decide)
      (by
        intro j hj
        simp only [List.singleton_append, List.mem_cons, List.mem_singleton,
          List.not_mem_nil, or_false] at hj
        rcases hj with rfl | rfl
        · exact ⟨⟨0, -1⟩, by decide, by decide, by decide⟩
        · exact ⟨⟨0, 1⟩, by decide, by decide, by decide⟩)
      (by decide)).1, rfl⟩

/-! ## Invariants of the reachable states -/

theorem init_ok {s s1 : State} (h : init s = .ok s1) :
    ∃ c rest,
      c ∉ [(⟨s.GRID_COUNT / 2, s.GRID_COUNT / 2⟩ : Cell),
        ⟨s.GRID_COUNT / 2 - 1, s.GRID_COUNT / 2⟩, ⟨s.GRID_COUNT / 2 - 2, s.GRID_COUNT / 2⟩] ∧
      s1 = { s with
        snake := [⟨s.GRID_COUNT / 2, s.GRID_COUNT / 2⟩,
          ⟨s.GRID_COUNT / 2 - 1, s.GRID_COUNT / 2⟩, ⟨s.GRID_COUNT / 2 - 2, s.GRID_COUNT / 2⟩]
        direction := ⟨0, 0⟩
        nextDirection := ⟨0, 0⟩
        score := 0
        gameRunning := false
        food := some c
        random := rest } := by
  unfold init at h
  obtain ⟨c, rest, hc, rfl⟩ := spawnFood_ok h
  exact ⟨c, rest, hc, rfl⟩

/-- The three ways in which `update` returns: a collision ends the game; the
snake eats and grows; the snake moves. -/
theorem update_ok_cases {s s1 : State} (h : update s = .ok s1) :
    ∃ head rest, s.snake = head :: rest ∧
      ((isWallCollision s (newHead s head) = true ∨ isSelfCollision s (newHead s head) = true) ∧
          s1 = endGame { s with direction := s.nextDirection } ∨
        (¬ isWallCollision s (newHead s head) = true ∧
          ¬ isSelfCollision s (newHead s head) = true ∧
          s.food = some (newHead s head) ∧
          ∃ c tape, c ∉ newHead s head :: s.snake ∧
            s1 = { s with
              direction := s.nextDirection
              snake := newHead s head :: s.snake
              score := s.score + 10
              food := some c
              random := tape }) ∨
        (¬ isWallCollision s (newHead s head) = true ∧
          ¬ isSelfCollision s (newHead s head) = true ∧
          ∃ food, s.food = some food ∧ newHead s head ≠ food ∧
            s1 = { s with
              direction := s.nextDirection
              snake := newHead s head :: s.snake.dropLast })) := by
  obtain hnil | ⟨head, rest, hsnake⟩ : s.snake = [] ∨ ∃ head rest, s.snake = head :: rest := by
    cases s.snake <;> simp
  · simp [update, hnil] at h
  · refine ⟨head, rest, hsnake, ?_⟩
    rw [update_cons s head rest hsnake] at h
    split_ifs at h with hc
    · simp only [Except.ok.injEq] at h
      exact Or.inl ⟨hc, h.symm⟩
    · have hw : ¬ isWallCollision s (newHead s head) = true := fun hw => hc (Or.inl hw)
      have hs : ¬ isSelfCollision s (newHead s head) = true := fun hs => hc (Or.inr hs)
      obtain hf | ⟨food, hf⟩ : s.food = none ∨ ∃ food, s.food = some food := by
        cases s.food <;> simp
      · simp [hf] at h
      · simp only [hf] at h
        split_ifs at h with heq
        · obtain ⟨c, tape, hc1, rfl⟩ := spawnFood_ok h
          exact Or.inr (Or.inl ⟨hw, hs, by rw [hf, heq], c, tape, hc1, rfl⟩)
        · simp only [Except.ok.injEq] at h
          refine Or.inr (Or.inr ⟨hw, hs, food, hf, heq, ?_⟩)
          rw [← h, hsnake, hf]
          rfl

theorem reachable_gridCount {n : Int} {s : State} (h : Reachable n s) : s.GRID_COUNT = n := by
  induction h with
  | construct h0 =>
    obtain ⟨c, rest, -, rfl⟩ := init_ok h0
    rfl
  | handleKeyPress k _ ih => rw [(handleKeyPress_frame _ k).2.2.2.2.1, ih]
  | update _ hu ih =>
    obtain ⟨head, rest, -, h | h | h⟩ := update_ok_cases hu
    · rw [h.2, (endGame_frame _).2.2.2.2.2.2.2.1]; exact ih
    · obtain ⟨-, -, -, c, tape, -, rfl⟩ := h; exact ih
    · obtain ⟨-, -, f, -, -, rfl⟩ := h; exact ih
  | restart _ hr ih =>
    obtain ⟨c, rest, -, rfl⟩ := init_ok hr
    exact ih

/-- C9. On a grid of N >= 4 cells per side, in every state reachable from the
constructor by key presses, updates and restarts, every snake cell (x, y) has
0 <= x < N and 0 <= y < N. -/
theorem snake_in_grid (n : Int) (hn : 4 ≤ n) (s : State) (h : Reachable n s) :
    ∀ c ∈ s.snake, 0 ≤ c.x ∧ c.x < n ∧ 0 ≤ c.y ∧ c.y < n := by
  have hinit : ∀ c ∈ [(⟨n / 2, n / 2⟩ : Cell), ⟨n / 2 - 1, n / 2⟩, ⟨n / 2 - 2, n / 2⟩],
      0 ≤ c.x ∧ c.x < n ∧ 0 ≤ c.y ∧ c.y < n := by
    intro c hc
    simp only [List.mem_cons, List.mem_singleton, List.not_mem_nil, or_false] at hc
    rcases hc with rfl | rfl | rfl <;> simp only <;> omega
  induction h with
  | construct h0 =>
    obtain ⟨c, rest, -, rfl⟩ := init_ok h0
    exact hinit
  | handleKeyPress k _ ih => rw [(handleKeyPress_frame _ k).1]; exact ih
  | @update s s1 hr hu ih =>
    have hg := reachable_gridCount hr
    obtain ⟨head, rest, -, h | h | h⟩ := update_ok_cases hu
    · rw [h.2, (endGame_frame _).2.2.1]; exact ih
    · obtain ⟨hw, -, -, c, tape, -, rfl⟩ := h
      intro c hc
      rcases List.mem_cons.1 hc with rfl | hc
      · rw [isWallCollision_iff, hg] at hw
        omega
      · exact ih c hc
    · obtain ⟨hw, -, f, -, -, rfl⟩ := h
      intro c hc
      rcases List.mem_cons.1 hc with rfl | hc
      · rw [isWallCollision_iff, hg] at hw
        omega
      · exact ih c (List.mem_of_mem_dropLast hc)
  | @restart s s1 hr hi _ =>
    have hg := reachable_gridCount hr
    obtain ⟨c, rest, -, rfl⟩ := init_ok hi
    show ∀ c ∈ [(⟨s.GRID_COUNT / 2, s.GRID_COUNT / 2⟩ : Cell),
      ⟨s.GRID_COUNT / 2 - 1, s.GRID_COUNT / 2⟩, ⟨s.GRID_COUNT / 2 - 2, s.GRID_COUNT / 2⟩], _
    rw [hg]
    exact hinit

/-- C9, at a concrete input: on the 30 by 30 grid, after the constructor, the
key d and one update, the three snake cells are in the grid. -/
theorem snake_in_grid_witness :
    (4 : Int) ≤ 30 ∧
      ∃ s, Reachable 30 s ∧ s.snake = [⟨16, 15⟩, ⟨15, 15⟩, ⟨14, 15⟩] ∧
        ((0 : Int) ≤ 16 ∧ (16 : Int) < 30 ∧ (0 : Int) ≤ 15 ∧ (15 : Int) < 30) ∧
        ((0 : Int) ≤ 15 ∧ (15 : Int) < 30 ∧ (0 : Int) ≤ 15 ∧ (15 : Int) < 30) ∧
        ((0 : Int) ≤ 14 ∧ (14 : Int) < 30 ∧ (0 : Int) ≤ 15 ∧ (15 : Int) < 30) := by
  have hr : ∃ s, Reachable 30 s ∧ s.snake = [⟨16, 15⟩, ⟨15, 15⟩, ⟨14, 15⟩] :=
    ⟨_, Reachable.update
      (Reachable.handleKeyPress "d"
        (@Reachable.construct 30 [] [sampleZero, sampleZero] _ rfl)) rfl, rfl⟩
  obtain ⟨s, hs, hsnake⟩ := hr
  have hall := snake_in_grid 30 (by decide) s hs
  rw [hsnake] at hall
  exact ⟨by decide, s, hs, hsnake, hall ⟨16, 15⟩ (by simp), hall ⟨15, 15⟩ (by simp),
    hall ⟨14, 15⟩ (by simp)⟩

/-- C10. The food cell is never a snake cell: whenever `spawnFood` returns,
the state it returns holds a food cell that differs from every snake cell; and
in every state reachable from the constructor by key presses, updates (eating
or not) and restarts, there is a food cell and it is not a member of the
snake. -/
theorem food_off_snake :
    (∀ s s1 : State, spawnFood s = .ok s1 → ∃ f, s1.food = some f ∧ f ∉ s1.snake) ∧
    (∀ (n : Int) (s : State), Reachable n s → ∃ f, s.food = some f ∧ f ∉ s.snake) := by
  refine ⟨fun s s1 h => ?_, fun n s h => ?_⟩
  · obtain ⟨c, rest, hc, rfl⟩ := spawnFood_ok h
    exact ⟨c, rfl, hc⟩
  · induction h with
    | construct h0 =>
      obtain ⟨c, rest, hc, rfl⟩ := init_ok h0
      exact ⟨c, rfl, hc⟩
    | handleKeyPress k _ ih =>
      rw [(handleKeyPress_frame _ k).1, (handleKeyPress_frame _ k).2.1]
      exact ih
    | update _ hu ih =>
      obtain ⟨head, rest, -, h | h | h⟩ := update_ok_cases hu
      · rw [h.2, (endGame_frame _).2.2.1, (endGame_frame _).2.2.2.1]
        exact ih
      · obtain ⟨-, -, -, c, tape, hc, rfl⟩ := h
        exact ⟨c, rfl, hc⟩
      · obtain ⟨-, -, f, hf, hne, rfl⟩ := h
        obtain ⟨g, hg, hmem⟩ := ih
        rw [hf] at hg
        cases hg
        refine ⟨f, hf, fun hc => ?_⟩
        rcases List.mem_cons.1 hc with h1 | h1
        · exact hne h1.symm
        · exact hmem (List.mem_of_mem_dropLast h1)
    | restart _ hr _ =>
      obtain ⟨c, rest, hc, rfl⟩ := init_ok hr
      exact ⟨c, rfl, hc⟩

/-- C10, at concrete inputs on the 30 by 30 grid.  With the draws (15, 15) and
then (0, 0) on the tape, `spawnFood` rejects the first, which is the head, and
returns the second; and after the constructor, the key d and one update, which
does not eat, the food (0, 0) is off the snake. -/
theorem food_off_snake_witness :
    (∃ f, (stateOf 30 [⟨15, 15⟩, ⟨14, 15⟩, ⟨13, 15⟩] ⟨0, 0⟩ ⟨0, 0⟩ ⟨0, 0⟩ false []).food
        = some f ∧
      f ∉ (stateOf 30 [⟨15, 15⟩, ⟨14, 15⟩, ⟨13, 15⟩] ⟨0, 0⟩ ⟨0, 0⟩ ⟨0, 0⟩ false []).snake) ∧
    ∃ s, Reachable 30 s ∧ s.snake = [⟨16, 15⟩, ⟨15, 15⟩, ⟨14, 15⟩] ∧
      ∃ f, s.food = some f ∧ f ∉ s.snake := by
  constructor
  · exact food_off_snake.1
      (stateOf 30 [⟨15, 15⟩, ⟨14, 15⟩, ⟨13, 15⟩] ⟨7, 7⟩ ⟨0, 0⟩ ⟨0, 0⟩ false
        [sampleHalf, sampleHalf, sampleZero, sampleZero])
      (stateOf 30 [⟨15, 15⟩, ⟨14, 15⟩, ⟨13, 15⟩] ⟨0, 0⟩ ⟨0, 0⟩ ⟨0, 0⟩ false []) rfl
  · have hr : ∃ s, Reachable 30 s ∧ s.snake = [⟨16, 15⟩, ⟨15, 15⟩, ⟨14, 15⟩] :=
      ⟨_, Reachable.update
        (Reachable.handleKeyPress "d"
          (@Reachable.construct 30 [] [sampleZero, sampleZero] _ rfl)) rfl, rfl⟩
    obtain ⟨s, hs, hsnake⟩ := hr
    exact ⟨s, hs, hsnake, food_off_snake.2 30 s hs⟩

theorem reachable_run {n : Int} (steps : List Step) :
    ∀ {s s1 : State}, Reachable n s → run steps s = .ok s1 → Reachable n s1 := by
  induction steps with
  | nil =>
    intro s s1 hs h
    simp only [run, Except.ok.injEq] at h
    exact h ▸ hs
  | cons e es ih =>
    intro s s1 hs h
    rw [run] at h
    cases hstep : step s e with
    | error err => rw [hstep] at h; cases h
    | ok s2 =>
      rw [hstep] at h
      refine ih ?_ h
      cases e with
      | key k =>
        simp only [step, Except.ok.injEq] at hstep
        exact hstep ▸ Reachable.handleKeyPress k hs
      | tick => exact Reachable.update hs hstep
      | restart => exact Reachable.restart hs hstep

/-- C11. In every reachable state the snake cells are pairwise distinct: after
the constructor, after any key, after any update and after any restart. -/
theorem snake_nodup (n : Int) (s : State) (h : Reachable n s) : s.snake.Nodup := by
  have hinit : ∀ c : Int, ([⟨c, c⟩, ⟨c - 1, c⟩, ⟨c - 2, c⟩] : List Cell).Nodup := by
    intro c
    simp only [List.nodup_cons, List.mem_cons, List.mem_singleton, List.not_mem_nil,
      Cell.mk.injEq, or_false, not_or, List.nodup_nil, and_true, not_false_eq_true]
    omega
  induction h with
  | construct h0 =>
    obtain ⟨c, rest, -, rfl⟩ := init_ok h0
    exact hinit _
  | handleKeyPress k _ ih => rw [(handleKeyPress_frame _ k).1]; exact ih
  | update _ hu ih =>
    obtain ⟨head, rest, -, h | h | h⟩ := update_ok_cases hu
    · rw [h.2, (endGame_frame _).2.2.1]; exact ih
    · obtain ⟨-, hs, -, c, tape, -, rfl⟩ := h
      exact List.nodup_cons.2 ⟨fun hm => hs ((isSelfCollision_iff _ _).2 hm), ih⟩
    · obtain ⟨-, hs, f, -, -, rfl⟩ := h
      refine List.nodup_cons.2 ⟨fun hm => hs ((isSelfCollision_iff _ _).2
        (List.mem_of_mem_dropLast hm)), ?_⟩
      exact List.Sublist.nodup (List.dropLast_sublist _) ih
  | restart _ hr _ =>
    obtain ⟨c, rest, -, rfl⟩ := init_ok hr
    exact hinit _

/-- C11, at a concrete input: on the 30 by 30 grid, after the constructor, the
key d and one update, the snake (16,15), (15,15), (14,15) has no repeated
cell. -/
theorem snake_nodup_witness :
    ∃ s, Reachable 30 s ∧ s.snake = [⟨16, 15⟩, ⟨15, 15⟩, ⟨14, 15⟩] ∧ s.snake.Nodup := by
  have hr : ∃ s, Reachable 30 s ∧ s.snake = [⟨16, 15⟩, ⟨15, 15⟩, ⟨14, 15⟩] :=
    ⟨_, Reachable.update
      (Reachable.handleKeyPress "d"
        (@Reachable.construct 30 [] [sampleZero, sampleZero] _ rfl)) rfl, rfl⟩
  obtain ⟨s, hs, hsnake⟩ := hr
  exact ⟨s, hs, hsnake, snake_nodup 30 s hs⟩

/-- C19. In every state reachable from the constructor by key presses, updates
and restarts, the snake has at least three cells and the score is ten times
the number of cells beyond three; so the score is a non-negative multiple of
10. -/
theorem score_tracks_length (n : Int) (s : State) (h : Reachable n s) :
    3 ≤ s.snake.length ∧ s.score = 10 * ((s.snake.length : Int) - 3) ∧
      0 ≤ s.score ∧ (10 : Int) ∣ s.score := by
  have key : 3 ≤ s.snake.length ∧ s.score = 10 * ((s.snake.length : Int) - 3) := by
    induction h with
    | construct h0 =>
      obtain ⟨c, rest, -, rfl⟩ := init_ok h0
      exact ⟨le_refl _, rfl⟩
    | handleKeyPress k _ ih =>
      rw [(handleKeyPress_frame _ k).1, (handleKeyPress_frame _ k).2.2.1]; exact ih
    | @update s0 s1 _ hu ih =>
      obtain ⟨head, rest, -, h | h | h⟩ := update_ok_cases hu
      · rw [h.2, (endGame_frame _).2.2.1, (endGame_frame _).2.2.2.2.1]; exact ih
      · obtain ⟨-, -, -, c, tape, -, rfl⟩ := h
        obtain ⟨h1, h2⟩ := ih
        refine ⟨by simp only [List.length_cons]; omega, ?_⟩
        simp only [List.length_cons, h2]
        push_cast
        ring
      · obtain ⟨-, -, f, -, -, rfl⟩ := h
        obtain ⟨h1, h2⟩ := ih
        simp only [List.length_cons, List.length_dropLast]
        refine ⟨by omega, ?_⟩
        have hl : s0.snake.length - 1 + 1 = s0.snake.length := by omega
        rw [hl, h2]
    | restart _ hr _ =>
      obtain ⟨c, rest, -, rfl⟩ := init_ok hr
      exact ⟨le_refl _, rfl⟩
  obtain ⟨h1, h2⟩ := key
  refine ⟨h1, h2, ?_, ?_⟩
  · rw [h2]; omega
  · rw [h2]; exact Dvd.intro _ rfl
/-- C19, at a concrete input: on the 30 by 30 grid with the first food drawn at
(16, 15), after the key d and one update the snake has four cells and the
score is 10. -/
theorem score_tracks_length_witness :
    ∃ s, Reachable 30 s ∧ s.snake.length = 4 ∧ s.score = 10 ∧
      s.score = 10 * ((s.snake.length : Int) - 3) := by
  have hr : ∃ s, Reachable 30 s ∧ s.snake.length = 4 ∧ s.score = 10 :=
    ⟨_, Reachable.update
      (Reachable.handleKeyPress "d"
        (@Reachable.construct 30 []
          [gridSample 29 16, gridSample 29 15, sampleZero, sampleZero] _ rfl)) rfl, rfl, rfl⟩
  obtain ⟨s, hs, hlen, hscore⟩ := hr
  exact ⟨s, hs, hlen, hscore, (score_tracks_length 30 s hs).2.1⟩

theorem cell_ne_opposite {d : Cell} (hd : d ≠ ⟨0, 0⟩) : d ≠ opposite d := by
  intro h
  apply hd
  have hx : d.x = -d.x := congrArg Cell.x h
  have hy : d.y = -d.y := congrArg Cell.y h
  cases d
  simp only [Cell.mk.injEq] at hx hy ⊢
  omega

theorem update_nextDirection {s s1 : State} (h : update s = .ok s1) :
    s1.nextDirection = s.nextDirection := by
  obtain ⟨head, rest, -, h | h | h⟩ := update_ok_cases h
  · rw [h.2]; exact (endGame_frame _).2.2.2.2.2.2.1
  · obtain ⟨-, -, -, c, tape, -, rfl⟩ := h; rfl
  · obtain ⟨-, -, f, -, -, rfl⟩ := h; rfl

/-- C16. In every reachable state whose current direction is not the zero
vector, the pending direction is not the opposite of the current one; so when
an update returns from such a state, the direction it has applied is not the
opposite of the direction applied before it. -/
theorem no_pending_reversal (n : Int) (s : State) (h : Reachable n s) :
    (s.direction ≠ ⟨0, 0⟩ → s.nextDirection ≠ opposite s.direction) ∧
      ∀ s1, update s = .ok s1 → s.direction ≠ ⟨0, 0⟩ →
        s1.direction ≠ opposite s.direction := by
  have key : s.direction ≠ ⟨0, 0⟩ → s.nextDirection ≠ opposite s.direction := by
    induction h with
    | construct h0 =>
      obtain ⟨c, rest, -, rfl⟩ := init_ok h0
      exact fun hd => absurd rfl hd
    | @handleKeyPress s0 k _ ih =>
      rw [(handleKeyPress_frame s0 k).2.2.2.1]
      intro hd
      cases hreq : requestedDirection k with
      | none => rw [handleKeyPress_of_no_request s0 k hreq]; exact ih hd
      | some v =>
        rw [handleKeyPress_of_request s0 k v hreq]
        split_ifs with h1 h2 h3 h4
        · exact ih hd
        · intro hv
          simp only at hv
          have hx : v.x = -s0.direction.x := congrArg Cell.x hv
          have hy : v.y = -s0.direction.y := congrArg Cell.y hv
          apply hd
          have : s0.direction.x = 0 ∧ s0.direction.y = 0 := by omega
          cases hdir : s0.direction
          rw [hdir] at this
          simp only [Cell.mk.injEq]
          exact this
        · intro hv
          simp only at hv
          have hx : v.x = -s0.direction.x := congrArg Cell.x hv
          have hy : v.y = -s0.direction.y := congrArg Cell.y hv
          apply hd
          have : s0.direction.x = 0 ∧ s0.direction.y = 0 := by omega
          cases hdir : s0.direction
          rw [hdir] at this
          simp only [Cell.mk.injEq]
          exact this
        · exact ih hd
        · exact ih hd
    | @update s0 s1 _ hu _ =>
      intro hd
      rw [update_nextDirection hu, ← update_direction hu]
      exact cell_ne_opposite hd
    | restart _ hr _ =>
      obtain ⟨c, rest, -, rfl⟩ := init_ok hr
      exact fun hd => absurd rfl hd
  exact ⟨key, fun s1 h1 hd => by rw [update_direction h1]; exact key hd⟩

/-- C16, at a concrete input: on the 30 by 30 grid, after the key d, one update
and the key ArrowLeft, the current direction is Right and the pending direction
is still Right, not Left. -/
theorem no_pending_reversal_witness :
    ∃ s, Reachable 30 s ∧ s.direction = ⟨1, 0⟩ ∧ s.nextDirection = ⟨1, 0⟩ ∧
      s.nextDirection ≠ opposite s.direction := by
  have hr : ∃ s, Reachable 30 s ∧ s.direction = ⟨1, 0⟩ ∧ s.nextDirection = ⟨1, 0⟩ :=
    ⟨_, Reachable.handleKeyPress "ArrowLeft"
      (Reachable.update
        (Reachable.handleKeyPress "d"
          (@Reachable.construct 30 [] [sampleZero, sampleZero] _ rfl)) rfl), rfl, rfl⟩
  obtain ⟨s, hs, hdir, hnext⟩ := hr
  exact ⟨s, hs, hdir, hnext, (no_pending_reversal 30 s hs).1 (by rw [hdir]; decide)⟩

/-! ## Game over and restart -/

/-- C12. With a stored high score `h`, `endGame` sets the high score to the
score when the score is strictly greater than `h`, and the store it leaves is
the store before with one `setItem` of the new high score applied; when the
score is at most `h` (equal included) the high score and the store are left as
they were.  A high score that is not a number is never exceeded and is left
alone too. -/
theorem endGame_highScore (s : State) :
    (∀ h, s.highScore = some h →
      (h < s.score →
        (endGame s).highScore = some s.score ∧
          (endGame s).localStorage =
            setItem s.localStorage "snakeHighScore" (numberToString (some s.score))) ∧
      (s.score ≤ h →
        (endGame s).highScore = some h ∧ (endGame s).localStorage = s.localStorage)) ∧
    (s.highScore = none →
      (endGame s).highScore = none ∧ (endGame s).localStorage = s.localStorage) := by
  refine ⟨fun h hh => ⟨fun hlt => ?_, fun hle => ?_⟩, fun hn => ?_⟩
  · have he : exceeds s.score (some h) = true := by simpa [exceeds] using hlt
    simp [endGame, hh, he, saveHighScore]
  · have he : exceeds s.score (some h) = false := by simpa [exceeds] using hle
    simp [endGame, hh, he]
  · have he : exceeds s.score none = false := rfl
    simp [endGame, hn, he]

/-- C12, at concrete inputs: with high score 20 a game ending on score 30
stores "30" once; a game ending on score 20 leaves the high score and the
empty store alone. -/
theorem endGame_highScore_witness :
    ((endGame { stateOf 30 [⟨0, 5⟩, ⟨0, 6⟩, ⟨0, 7⟩] ⟨3, 3⟩ ⟨-1, 0⟩ ⟨-1, 0⟩ true [] with
        score := 30, highScore := some 20 }).highScore = some 30 ∧
      (endGame { stateOf 30 [⟨0, 5⟩, ⟨0, 6⟩, ⟨0, 7⟩] ⟨3, 3⟩ ⟨-1, 0⟩ ⟨-1, 0⟩ true [] with
        score := 30, highScore := some 20 }).localStorage = [("snakeHighScore", "30")]) ∧
    ((endGame { stateOf 30 [⟨0, 5⟩, ⟨0, 6⟩, ⟨0, 7⟩] ⟨3, 3⟩ ⟨-1, 0⟩ ⟨-1, 0⟩ true [] with
        score := 20, highScore := some 20 }).highScore = some 20 ∧
      (endGame { stateOf 30 [⟨0, 5⟩, ⟨0, 6⟩, ⟨0, 7⟩] ⟨3, 3⟩ ⟨-1, 0⟩ ⟨-1, 0⟩ true [] with
        score := 20, highScore := some 20 }).localStorage = []) :=
  ⟨((endGame_highScore { stateOf 30 [⟨0, 5⟩, ⟨0, 6⟩, ⟨0, 7⟩] ⟨3, 3⟩ ⟨-1, 0⟩ ⟨-1, 0⟩ true [] with
      score := 30, highScore := some 20 }).1 20 rfl).1 (by decide),
    ((endGame_highScore { stateOf 30 [⟨0, 5⟩, ⟨0, 6⟩, ⟨0, 7⟩] ⟨3, 3⟩ ⟨-1, 0⟩ ⟨-1, 0⟩ true [] with
      score := 20, highScore := some 20 }).1 20 rfl).2 (by decide)⟩

/-- C13. From every state, any state that `restart` returns is the canonical
initial configuration: the snake is (c, c), (c-1, c), (c-2, c) with
c = floor(N/2), the current and the pending direction are zero, the score is 0,
the game is not running and the game-over modal is hidden.  And `restart` does
return as soon as the random tape holds, at an even offset, a draw off these
three cells. -/
theorem restart_canonical (s : State) :
    (∀ s1, restart s = .ok s1 →
      s1.snake = [⟨s.GRID_COUNT / 2, s.GRID_COUNT / 2⟩,
          ⟨s.GRID_COUNT / 2 - 1, s.GRID_COUNT / 2⟩, ⟨s.GRID_COUNT / 2 - 2, s.GRID_COUNT / 2⟩] ∧
        s1.direction = ⟨0, 0⟩ ∧ s1.nextDirection = ⟨0, 0⟩ ∧ s1.score = 0 ∧
        s1.gameRunning = false ∧ s1.modalShown = false) ∧
    (∀ pre rx ry tl, s.random = pre ++ rx :: ry :: tl → Even pre.length →
      drawnCell s.GRID_COUNT rx ry ∉
        [(⟨s.GRID_COUNT / 2, s.GRID_COUNT / 2⟩ : Cell),
          ⟨s.GRID_COUNT / 2 - 1, s.GRID_COUNT / 2⟩, ⟨s.GRID_COUNT / 2 - 2, s.GRID_COUNT / 2⟩] →
      ∃ s1, restart s = .ok s1) := by
  refine ⟨fun s1 h => ?_, fun pre rx ry tl htape heven hdraw => ?_⟩
  · obtain ⟨c, rest, -, rfl⟩ := init_ok h
    exact ⟨rfl, rfl, rfl, rfl, rfl, rfl⟩
  · obtain ⟨k, hk⟩ := heven
    obtain ⟨c, tape, hloop⟩ := spawnFoodLoop_exits s.GRID_COUNT
      [(⟨s.GRID_COUNT / 2, s.GRID_COUNT / 2⟩ : Cell),
        ⟨s.GRID_COUNT / 2 - 1, s.GRID_COUNT / 2⟩, ⟨s.GRID_COUNT / 2 - 2, s.GRID_COUNT / 2⟩]
      k pre (by omega) rx ry tl hdraw
    unfold restart init spawnFood
    simp only [htape, hloop]
    exact ⟨_, rfl⟩

/-- C13, at a concrete input: on the 30 by 30 grid the game started with d
runs into the wall on the fifteenth update; restart from that game-over state
returns the snake (15,15), (14,15), (13,15) with zero directions, score 0, not
running and the modal hidden. -/
theorem restart_canonical_witness :
    ∃ s0 sOver s1, construct 30 [] [sampleZero, sampleZero, sampleZero, sampleZero] = .ok s0 ∧
      updates 15 (handleKeyPress s0 "d") = .ok sOver ∧
      sOver.modalShown = true ∧ sOver.snake = [⟨29, 15⟩, ⟨28, 15⟩, ⟨27, 15⟩] ∧
      restart sOver = .ok s1 ∧
      s1.snake = [⟨15, 15⟩, ⟨14, 15⟩, ⟨13, 15⟩] ∧ s1.direction = ⟨0, 0⟩ ∧
      s1.nextDirection = ⟨0, 0⟩ ∧ s1.score = 0 ∧ s1.gameRunning = false ∧
      s1.modalShown = false := by
  have hr : ∃ s0 sOver, construct 30 [] [sampleZero, sampleZero, sampleZero, sampleZero]
      = .ok s0 ∧ updates 15 (handleKeyPress s0 "d") = .ok sOver ∧
      sOver.modalShown = true ∧ sOver.snake = [⟨29, 15⟩, ⟨28, 15⟩, ⟨27, 15⟩] ∧
      sOver.GRID_COUNT = 30 ∧ sOver.random = [sampleZero, sampleZero] :=
    ⟨_, _, rfl, rfl, rfl, rfl, rfl, rfl⟩
  obtain ⟨s0, sOver, h0, hover, hmodal, hsnake, hgrid, htape⟩ := hr
  obtain ⟨s1, h1⟩ := (restart_canonical sOver).2 [] sampleZero sampleZero [] htape
    (by decide) (by rw [hgrid]; decide)
  have h2 := (restart_canonical sOver).1 s1 h1
  rw [hgrid] at h2
  exact ⟨s0, sOver, s1, h0, hover, hmodal, hsnake, h1, h2⟩

/-- C14, the code at a restart of a running game.  On a 30 by 30 grid the
constructed game is started with d, which schedules interval 1; `restart`
resets the state without cancelling it; the key d then schedules interval 2,
and both intervals are active.  The same happens with key events alone: after
a game over the key ArrowUp resumes the game on interval 2 with the modal still
shown, the Enter key restarts it and leaves interval 2 scheduled, and the key d
schedules interval 3 next to it.  When the game then ends, `endGame` cancels
only the interval it has the id of. -/
theorem restart_keeps_interval :
    (∃ s0 s1 s2, construct 30 [] [sampleZero, sampleZero, sampleZero, sampleZero] = .ok s0 ∧
      (handleKeyPress s0 "d").timers = [1] ∧
      restart (handleKeyPress s0 "d") = .ok s1 ∧
      s1.gameRunning = false ∧ s1.timers = [1] ∧
      (handleKeyPress s1 "d").gameRunning = true ∧
      (handleKeyPress s1 "d").timers = [2, 1] ∧
      Reachable 30 (handleKeyPress s1 "d") ∧
      updates 15 (handleKeyPress s1 "d") = .ok s2 ∧
      s2.gameRunning = false ∧ s2.modalShown = true ∧ s2.timers = [1]) ∧
    (∃ s0 sOver s1, construct 30 [] [sampleZero, sampleZero, sampleZero, sampleZero] = .ok s0 ∧
      updates 15 (handleKeyPress s0 "d") = .ok sOver ∧
      sOver.modalShown = true ∧ sOver.timers = [] ∧
      (handleKeyPress sOver "ArrowUp").timers = [2] ∧
      keydown (handleKeyPress sOver "ArrowUp") "Enter" = .ok s1 ∧
      s1.gameRunning = false ∧ s1.modalShown = false ∧ s1.timers = [2] ∧
      (handleKeyPress s1 "d").timers = [3, 2]) := by
  refine ⟨⟨_, _, _, rfl, rfl, rfl, rfl, rfl, rfl, rfl, ?_, rfl, rfl, rfl, rfl⟩,
    ⟨_, _, _, rfl, rfl, rfl, rfl, rfl, rfl, rfl, rfl, rfl, rfl⟩⟩
  exact Reachable.handleKeyPress "d"
    (Reachable.restart
      (Reachable.handleKeyPress "d"
        (@Reachable.construct 30 [] [sampleZero, sampleZero, sampleZero, sampleZero] _ rfl))
      rfl)

/-- C15 as stated fails for one food placement.  On the 30 by 30 grid the
constructor can draw the first food at (15, 14), right above the head; after
ArrowUp the state is running and the update eats: the head becomes (15, 14),
the tail (13, 15) stays and the snake has four cells. -/
theorem up_onto_food_grows :
    ∃ s0 s1, construct 30 [] [gridSample 29 15, gridSample 29 14, sampleZero, sampleZero]
        = .ok s0 ∧
      s0.snake = [⟨15, 15⟩, ⟨14, 15⟩, ⟨13, 15⟩] ∧ s0.direction = ⟨0, 0⟩ ∧
      s0.food = some ⟨15, 14⟩ ∧
      (handleKeyPress s0 "ArrowUp").gameRunning = true ∧
      update (handleKeyPress s0 "ArrowUp") = .ok s1 ∧
      s1.snake = [⟨15, 14⟩, ⟨15, 15⟩, ⟨14, 15⟩, ⟨13, 15⟩] ∧ s1.snake.length = 4 ∧
      s1.snake ≠ [⟨15, 14⟩, ⟨15, 15⟩, ⟨14, 15⟩] :=
  ⟨_, _, rfl, rfl, rfl, rfl, rfl, rfl, rfl, rfl, by decide⟩

/-- C15, amended.  On the 30 by 30 grid every state that the constructor
returns has the snake (15,15), (14,15), (13,15) and direction zero; if its food
is not at (15, 14), a key asking for Up makes the state running and the next
update returns the snake (15,14), (15,15), (14,15): the head is (15, 14), the
tail (13, 15) is removed and the length stays 3. -/
theorem up_scenario (store : List (String × String)) (tape : List UnitSample) (s0 : State)
    (eventKey : String) (h0 : construct 30 store tape = .ok s0)
    (hkey : requestedDirection eventKey = some ⟨0, -1⟩)
    (hfood : s0.food ≠ some ⟨15, 14⟩) :
    s0.snake = [⟨15, 15⟩, ⟨14, 15⟩, ⟨13, 15⟩] ∧ s0.direction = ⟨0, 0⟩ ∧
      (handleKeyPress s0 eventKey).gameRunning = true ∧
      ∃ s1, update (handleKeyPress s0 eventKey) = .ok s1 ∧
        s1.snake = [⟨15, 14⟩, ⟨15, 15⟩, ⟨14, 15⟩] ∧ s1.snake.length = 3 := by
  obtain ⟨c, rest, -, hs0⟩ := init_ok h0
  have hsnake : s0.snake = [⟨15, 15⟩, ⟨14, 15⟩, ⟨13, 15⟩] := by rw [hs0]; rfl
  have hdir : s0.direction = ⟨0, 0⟩ := by rw [hs0]
  have hrun : s0.gameRunning = false := by rw [hs0]
  have hgrid : s0.GRID_COUNT = 30 := by rw [hs0]
  have hfood0 : s0.food = some c := by rw [hs0]
  have hc14 : ¬ (⟨15, 14⟩ : Cell) = c := fun h => hfood (by rw [hfood0, h])
  have hkp : handleKeyPress s0 eventKey =
      { startGameLoop { s0 with gameRunning := true } with nextDirection := ⟨0, -1⟩ } := by
    rw [handleKeyPress_of_request s0 eventKey _ hkey, if_neg (by simp),
      if_pos (Or.inl ⟨rfl, by rw [hdir]⟩), if_pos hrun]
  have hsnake1 : (handleKeyPress s0 eventKey).snake = [⟨15, 15⟩, ⟨14, 15⟩, ⟨13, 15⟩] := by
    rw [(handleKeyPress_frame s0 eventKey).1, hsnake]
  have hfood1 : (handleKeyPress s0 eventKey).food = some c := by
    rw [(handleKeyPress_frame s0 eventKey).2.1, hfood0]
  have hgrid1 : (handleKeyPress s0 eventKey).GRID_COUNT = 30 := by
    rw [(handleKeyPress_frame s0 eventKey).2.2.2.2.1, hgrid]
  have hnh : newHead (handleKeyPress s0 eventKey) ⟨15, 15⟩ = ⟨15, 14⟩ := by
    rw [hkp]; rfl
  have hw : ¬ isWallCollision (handleKeyPress s0 eventKey) ⟨15, 14⟩ = true := by
    rw [isWallCollision_iff, hgrid1]; simp
  have hs : ¬ isSelfCollision (handleKeyPress s0 eventKey) ⟨15, 14⟩ = true := by
    rw [isSelfCollision_iff, hsnake1]; decide
  have hupd := update_cons (handleKeyPress s0 eventKey) ⟨15, 15⟩ _ hsnake1
  rw [hnh, if_neg (by tauto), hfood1] at hupd
  simp only [if_neg hc14] at hupd
  refine ⟨hsnake, hdir, by rw [hkp]; rfl, _, hupd, ?_, ?_⟩
  · show (⟨15, 14⟩ :: (handleKeyPress s0 eventKey).snake).dropLast = _
    rw [hsnake1]; rfl
  · show (⟨15, 14⟩ :: (handleKeyPress s0 eventKey).snake).dropLast.length = 3
    rw [hsnake1]; rfl

/-- C15 amended, at a concrete input: the constructor draws the food at (0, 0),
ArrowUp starts the game and the update returns the snake (15,14), (15,15),
(14,15). -/
theorem up_scenario_witness :
    ∃ s0 s1, construct 30 [] [sampleZero, sampleZero] = .ok s0 ∧
      s0.food = some ⟨0, 0⟩ ∧
      (handleKeyPress s0 "ArrowUp").gameRunning = true ∧
      update (handleKeyPress s0 "ArrowUp") = .ok s1 ∧
      s1.snake = [⟨15, 14⟩, ⟨15, 15⟩, ⟨14, 15⟩] ∧ s1.snake.length = 3 := by
  have hr : ∃ s0, construct 30 [] [sampleZero, sampleZero] = .ok s0 ∧ s0.food = some ⟨0, 0⟩ :=
    ⟨_, rfl, rfl⟩
  obtain ⟨s0, h0, hfood⟩ := hr
  obtain ⟨-, -, hrun, s1, h1, h2, h3⟩ := up_scenario [] [sampleZero, sampleZero] s0 "ArrowUp"
    h0 (by decide) (by rw [hfood]; decide)
  exact ⟨s0, s1, h0, hfood, hrun, h1, h2, h3⟩

/-! ## Totality of the update step -/

theorem floorScale_bounds (r : UnitSample) (n : Int) (hn : 0 < n) :
    0 ≤ floorScale r n ∧ floorScale r n < n := by
  unfold floorScale
  have hden : (0 : Int) < (r.den : Int) := by
    have := r.lt
    omega
  have hnum : (r.num : Int) < (r.den : Int) := by exact_mod_cast r.lt
  constructor
  · exact Int.ediv_nonneg (mul_nonneg (Int.natCast_nonneg _) hn.le) hden.le
  · apply Int.ediv_lt_of_lt_mul hden
    rw [mul_comm]
    exact mul_lt_mul_of_pos_left hnum hn

theorem spawnFoodLoop_full (n : Int) (snake : List Cell) (hn : 0 < n)
    (hfull : ∀ c : Cell, 0 ≤ c.x → c.x < n → 0 ≤ c.y → c.y < n → c ∈ snake) :
    ∀ (k : Nat) (tape : List UnitSample), tape.length ≤ k →
      spawnFoodLoop n snake tape = none := by
  intro k
  induction k with
  | zero =>
    intro tape hk
    have : tape = [] := List.length_eq_zero.1 (Nat.le_zero.1 hk)
    subst this
    rfl
  | succ k ih =>
    intro tape hk
    match tape, hk with
    | [], _ => rfl
    | [_], _ => rfl
    | rx :: ry :: tl, hk =>
      have hmem : drawnCell n rx ry ∈ snake :=
        hfull _ (floorScale_bounds rx n hn).1 (floorScale_bounds rx n hn).2
          (floorScale_bounds ry n hn).1 (floorScale_bounds ry n hn).2
      rw [spawnFoodLoop_cons, if_pos hmem]
      exact ih tl (by simp at hk; omega)

/-- C17 as stated fails on a filled grid.  On the 4 by 4 grid, with the food
drawn each time on the cell in front of the head, eighteen calls lead to a
reachable state whose snake has fifteen cells, with the food on the last free
cell (0, 3) and the head next to it heading Left.  Whatever `Math.random()`
returns from then on, `update` does not return from that state: the snake
fills the grid and the loop of `spawnFood` never finds a free cell. -/
theorem update_diverges_on_full_grid :
    ∃ s, Reachable 4 s ∧
      s.snake = [⟨1, 3⟩, ⟨2, 3⟩, ⟨3, 3⟩, ⟨3, 2⟩, ⟨3, 1⟩, ⟨3, 0⟩, ⟨2, 0⟩, ⟨1, 0⟩, ⟨0, 0⟩,
        ⟨0, 1⟩, ⟨1, 1⟩, ⟨2, 1⟩, ⟨2, 2⟩, ⟨1, 2⟩, ⟨0, 2⟩] ∧
      s.food = some ⟨0, 3⟩ ∧ s.nextDirection = ⟨-1, 0⟩ ∧
      ∀ tape, update { s with random := tape } = .error .noMoreSamples := by
  have hr : ∃ s, Reachable 4 s ∧
      s.snake = [⟨1, 3⟩, ⟨2, 3⟩, ⟨3, 3⟩, ⟨3, 2⟩, ⟨3, 1⟩, ⟨3, 0⟩, ⟨2, 0⟩, ⟨1, 0⟩, ⟨0, 0⟩,
        ⟨0, 1⟩, ⟨1, 1⟩, ⟨2, 1⟩, ⟨2, 2⟩, ⟨1, 2⟩, ⟨0, 2⟩] ∧
      s.food = some ⟨0, 3⟩ ∧ s.nextDirection = ⟨-1, 0⟩ ∧ s.GRID_COUNT = 4 :=
    ⟨_, reachable_run
      [.key "w", .tick, .key "a", .tick, .tick, .key "w", .tick, .key "d", .tick, .tick,
        .tick, .key "s", .tick, .tick, .tick, .key "a", .tick, .tick]
      (@Reachable.construct 4 []
        [gridSample 3 2, gridSample 3 1, gridSample 3 1, gridSample 3 1,
          gridSample 3 0, gridSample 3 1, gridSample 3 0, gridSample 3 0,
          gridSample 3 1, gridSample 3 0, gridSample 3 2, gridSample 3 0,
          gridSample 3 3, gridSample 3 0, gridSample 3 3, gridSample 3 1,
          gridSample 3 3, gridSample 3 2, gridSample 3 3, gridSample 3 3,
          gridSample 3 2, gridSample 3 3, gridSample 3 1, gridSample 3 3,
          gridSample 3 0, gridSample 3 3] _ rfl) rfl,
      rfl, rfl, rfl, rfl⟩
  obtain ⟨s, hs, hsnake, hfood, hnext, hgrid⟩ := hr
  refine ⟨s, hs, hsnake, hfood, hnext, fun tape => ?_⟩
  have hnh : newHead { s with random := tape } ⟨1, 3⟩ = ⟨0, 3⟩ := by
    show (⟨1 + s.nextDirection.x, 3 + s.nextDirection.y⟩ : Cell) = _
    rw [hnext]; rfl
  have hw : ¬ isWallCollision { s with random := tape } ⟨0, 3⟩ = true := by
    rw [isWallCollision_iff]
    show ¬ ((0 : Int) < 0 ∨ (0 : Int) ≥ s.GRID_COUNT ∨ (3 : Int) < 0 ∨ (3 : Int) ≥ s.GRID_COUNT)
    rw [hgrid]; decide
  have hself : ¬ isSelfCollision { s with random := tape } ⟨0, 3⟩ = true := by
    rw [isSelfCollision_iff]
    show (⟨0, 3⟩ : Cell) ∉ s.snake
    rw [hsnake]; decide
  rw [update_cons { s with random := tape } ⟨1, 3⟩ _ hsnake, hnh, if_neg (by tauto)]
  show (match s.food with
    | none => Except.error Err.typeError
    | some food => _) = _
  rw [hfood]
  simp only [if_true]
  unfold spawnFood
  have hloop : spawnFoodLoop s.GRID_COUNT (⟨0, 3⟩ :: s.snake) tape = none := by
    rw [hgrid, hsnake]
    refine spawnFoodLoop_full 4 _ (by decide) (fun c h1 h2 h3 h4 => ?_) _ tape (le_refl _)
    obtain ⟨x, y⟩ := c
    simp only at h1 h2 h3 h4
    interval_cases x <;> interval_cases y <;> decide
  simp only [hloop]

theorem reachable_snake_food {n : Int} {s : State} (h : Reachable n s) :
    (∃ head rest, s.snake = head :: rest) ∧ ∃ food, s.food = some food := by
  induction h with
  | construct h0 =>
    obtain ⟨c, rest, -, rfl⟩ := init_ok h0
    exact ⟨⟨_, _, rfl⟩, _, rfl⟩
  | handleKeyPress k _ ih =>
    rw [(handleKeyPress_frame _ k).1, (handleKeyPress_frame _ k).2.1]
    exact ih
  | update _ hu ih =>
    obtain ⟨head, rest, -, h | h | h⟩ := update_ok_cases hu
    · rw [h.2, (endGame_frame _).2.2.1, (endGame_frame _).2.2.2.1]
      exact ih
    · obtain ⟨-, -, -, c, tape, -, rfl⟩ := h
      exact ⟨⟨_, _, rfl⟩, _, rfl⟩
    · obtain ⟨-, -, f, hf, -, rfl⟩ := h
      exact ⟨⟨_, _, rfl⟩, f, hf⟩
  | restart _ hr _ =>
    obtain ⟨c, rest, -, rfl⟩ := init_ok hr
    exact ⟨⟨_, _, rfl⟩, _, rfl⟩

/-- C17, amended.  In every reachable state the snake is non-empty and the food
is set, so `update` raises no exception from a lookup in `undefined` or `null`.
It returns a state whenever the new head is not on the food, and, whatever the
new head, as soon as the random tape holds, at an even offset, a draw off the
snake grown by the new head. -/
theorem update_no_exception (n : Int) (s : State) (h : Reachable n s) :
    1 ≤ s.snake.length ∧ update s ≠ .error .typeError ∧
      ∃ head, s.snake.head? = some head ∧
        (s.food ≠ some (newHead s head) → ∃ s1, update s = .ok s1) ∧
        (∀ pre rx ry tl, s.random = pre ++ rx :: ry :: tl → Even pre.length →
          drawnCell s.GRID_COUNT rx ry ∉ newHead s head :: s.snake →
            ∃ s1, update s = .ok s1) := by
  obtain ⟨⟨head, rest, hsnake⟩, food, hfood⟩ := reachable_snake_food h
  have hupd := update_cons s head rest hsnake
  rw [hfood] at hupd
  simp only at hupd
  refine ⟨by rw [hsnake]; simp, ?_, head, by rw [hsnake]; rfl, fun hne => ?_,
    fun pre rx ry tl htape heven hdraw => ?_⟩
  · rw [hupd]
    split_ifs
    · exact fun h => by cases h
    · unfold spawnFood
      split <;> exact fun h => by cases h
    · exact fun h => by cases h
  · rw [hupd]
    split_ifs with h1 h2
    · exact ⟨_, rfl⟩
    · exact absurd (by rw [hfood, h2]) hne
    · exact ⟨_, rfl⟩
  · rw [hupd]
    split_ifs with h1 h2
    · exact ⟨_, rfl⟩
    · obtain ⟨k, hk⟩ := heven
      obtain ⟨c, tape, hloop⟩ := spawnFoodLoop_exits s.GRID_COUNT (newHead s head :: s.snake) k
        pre (by omega) rx ry tl hdraw
      unfold spawnFood
      simp only [htape, hloop]
      exact ⟨_, rfl⟩
    · exact ⟨_, rfl⟩

/-- C17 amended, at a concrete input: on the 30 by 30 grid the state after the
constructor and the key d has a snake of three cells, and `update` returns from
it with the head moved to (16, 15). -/
theorem update_no_exception_witness :
    ∃ s s1, Reachable 30 s ∧ s.snake.length = 3 ∧ 1 ≤ s.snake.length ∧
      update s ≠ .error .typeError ∧ update s = .ok s1 ∧
      s1.snake = [⟨16, 15⟩, ⟨15, 15⟩, ⟨14, 15⟩] := by
  have hr : ∃ s s1, Reachable 30 s ∧ s.snake.length = 3 ∧ update s = .ok s1 ∧
      s1.snake = [⟨16, 15⟩, ⟨15, 15⟩, ⟨14, 15⟩] :=
    ⟨_, _, Reachable.handleKeyPress "d"
      (@Reachable.construct 30 [] [sampleZero, sampleZero] _ rfl), rfl, rfl, rfl⟩
  obtain ⟨s, s1, hs, hlen, hupd, hsnake⟩ := hr
  obtain ⟨h1, h2, -⟩ := update_no_exception 30 s hs
  exact ⟨s, s1, hs, hlen, h1, h2, hupd, hsnake⟩

/-! ## Persistence of the high score -/

theorem digitChar_toNat (r : Nat) (hr : r < 10) : (Nat.digitChar r).toNat = 48 + r := by
  interval_cases r <;> rfl

theorem toDigitsCore_spec :
    ∀ (fuel n : Nat) (acc : List Char), n < fuel →
      ∃ ds, Nat.toDigitsCore 10 fuel n acc = ds ++ acc ∧ ds ≠ [] ∧
        (∀ c ∈ ds, 48 ≤ c.toNat ∧ c.toNat ≤ 57) ∧
        ∀ init : Nat, (ds.map fun c => c.toNat - 48).foldl (fun a d => a * 10 + d) init =
          init * 10 ^ ds.length + n := by
  intro fuel
  induction fuel with
  | zero => intro n acc h; omega
  | succ fuel ih =>
    intro n acc hn
    have hd := digitChar_toNat (n % 10) (Nat.mod_lt _ (by decide))
    rw [Nat.toDigitsCore]
    by_cases hq : n / 10 = 0
    · rw [if_pos hq]
      refine ⟨[Nat.digitChar (n % 10)], rfl, by simp, ?_, ?_⟩
      · intro c hc
        rw [List.mem_singleton] at hc
        subst hc
        omega
      · intro init
        simp only [List.map_cons, List.map_nil, List.foldl_cons, List.foldl_nil, hd,
          List.length_singleton, pow_one]
        omega
    · rw [if_neg hq]
      obtain ⟨ds, h1, h2, h3, h4⟩ := ih (n / 10) (Nat.digitChar (n % 10) :: acc) (by omega)
      refine ⟨ds ++ [Nat.digitChar (n % 10)], by rw [h1]; simp, by simp, ?_, ?_⟩
      · intro c hc
        rcases List.mem_append.1 hc with hc | hc
        · exact h3 c hc
        · rw [List.mem_singleton] at hc
          subst hc
          omega
      · intro init
        rw [List.map_append, List.foldl_append, h4 init]
        simp only [List.map_cons, List.map_nil, List.foldl_cons, List.foldl_nil, hd,
          List.length_append, List.length_singleton, pow_succ]
        have := Nat.div_add_mod n 10
        have e : 48 + n % 10 - 48 = n % 10 := by omega
        rw [e]
        nlinarith [Nat.div_add_mod n 10]

theorem takeDigits_decimal (ds : List Char) (hall : ∀ c ∈ ds, 48 ≤ c.toNat ∧ c.toNat ≤ 57) :
    takeDigits 10 ds = ds.map fun c => c.toNat - 48 := by
  induction ds with
  | nil => rfl
  | cons c cs ih =>
    have hc := hall c (List.mem_cons_self _ _)
    have hv : digitValue 10 c = some (c.toNat - 48) := by
      unfold digitValue
      simp only [hc, and_self, if_true]
      rw [if_pos (by omega)]
    rw [takeDigits, hv, List.map_cons, ih (fun d hd => hall d (List.mem_cons_of_mem _ hd))]

theorem parseInt_sign_other {α : Type} (l : List Char) (a b d : List Char → α)
    (hm : ∀ r, l ≠ '-' :: r) (hp : ∀ r, l ≠ '+' :: r) :
    parseInt.match_1 (fun _ => α) l a b d = d l := by
  split
  · exact absurd rfl (hm _)
  · exact absurd rfl (hp _)
  · rfl

theorem parseInt_sign_digit {α : Type} (c : Char) (cs : List Char)
    (hc : 48 ≤ c.toNat ∧ c.toNat ≤ 57) (a b d : List Char → α) :
    parseInt.match_1 (fun _ => α) (c :: cs) a b d = d (c :: cs) := by
  apply parseInt_sign_other
  · intro r h
    rw [(List.cons.inj h).1] at hc
    exact absurd hc (by decide)
  · intro r h
    rw [(List.cons.inj h).1] at hc
    exact absurd hc (by decide)

theorem parseInt_radix_digit {α : Type} (ds : List Char)
    (hall : ∀ c ∈ ds, 48 ≤ c.toNat ∧ c.toNat ≤ 57) (a b d : List Char → α) :
    parseInt.match_2 (fun _ => α) ds a b d = d ds := by
  split
  · exact absurd (hall 'x' (by simp)) (by decide)
  · exact absurd (hall 'X' (by simp)) (by decide)
  · rfl

theorem parseInt_decimal (ds : List Char) (hne : ds ≠ [])
    (hall : ∀ c ∈ ds, 48 ≤ c.toNat ∧ c.toNat ≤ 57) :
    parseInt ⟨ds⟩ =
      some ((roundToDouble
        ((ds.map fun c => c.toNat - 48).foldl (fun a d => a * 10 + d) 0) : Nat) : Int) := by
  obtain ⟨c, cs, rfl⟩ := List.exists_cons_of_ne_nil hne
  have hc := hall c (List.mem_cons_self _ _)
  have hws : isWhiteSpace c = false := by
    unfold isWhiteSpace
    simp only [Bool.or_eq_false_iff, Bool.and_eq_false_iff, decide_eq_false_iff_not]
    omega
  have hdrop : List.dropWhile isWhiteSpace (c :: cs) = c :: cs := by
    rw [List.dropWhile_cons, hws]; rfl
  unfold parseInt
  simp only [hdrop, parseInt_sign_digit c cs hc, parseInt_radix_digit (c :: cs) hall,
    takeDigits_decimal (c :: cs) hall]
  rw [if_neg (by simp)]
  simp

theorem roundToDouble_of_lt (n : Nat) (h : n < 2 ^ 53) : roundToDouble n = n := by
  have hz : excessBits n n = 0 := by
    cases n with
    | zero => rfl
    | succ m => rw [excessBits, if_pos h]
  unfold roundToDouble
  simp only [hz, if_true]

theorem shortestFrom_round (x : Nat) (hx : roundToDouble x = x) :
    ∀ e : Nat, roundToDouble ((shortestFrom x e).1 * 10 ^ (shortestFrom x e).2) = x := by
  intro e
  induction e with
  | zero => simpa [shortestFrom] using hx
  | succ e ih =>
    rw [shortestFrom]
    simp only [Bool.and_eq_true, decide_eq_true_eq]
    split_ifs with h1 h2 h3 h4 h5 h6
    · exact h1.1.2
    · exact h1.2
    · exact h1.1.2
    · exact h1.2
    · exact h5.2
    · exact h6
    · exact ih

theorem foldl_zeros (e v : Nat) :
    ((List.replicate e '0').map fun c => c.toNat - 48).foldl (fun a d => a * 10 + d) v =
      v * 10 ^ e := by
  induction e generalizing v with
  | zero => simp
  | succ e ih =>
    rw [List.replicate_succ, List.map_cons, List.foldl_cons, ih, pow_succ]
    have : ('0' : Char).toNat - 48 = 0 := rfl
    rw [this]
    ring

theorem toDigits_spec (s : Nat) :
    Nat.toDigits 10 s ≠ [] ∧ (∀ c ∈ Nat.toDigits 10 s, 48 ≤ c.toNat ∧ c.toNat ≤ 57) ∧
      ((Nat.toDigits 10 s).map fun c => c.toNat - 48).foldl (fun a d => a * 10 + d) 0 = s := by
  obtain ⟨ds, h1, h2, h3, h4⟩ := toDigitsCore_spec (s + 1) s [] (Nat.lt_succ_self s)
  rw [List.append_nil] at h1
  have hd : Nat.toDigits 10 s = ds := by rw [Nat.toDigits, h1]
  rw [hd]
  exact ⟨h2, h3, by rw [h4 0]; simp⟩

theorem numberToString_plain (h : Nat) (hlt : h < 10 ^ 21) :
    numberToString (some (h : Int)) =
      ⟨Nat.toDigits 10 (shortestDecimal h).1 ++ List.replicate (shortestDecimal h).2 '0'⟩ := by
  unfold numberToString
  simp only [Int.natAbs_ofNat, hlt, if_true]
  rw [if_neg (by omega)]

theorem load_after_save (s : State) (h : Nat) (hh : s.highScore = some (h : Int))
    (hlt : h < 10 ^ 21) (hd : roundToDouble h = h) :
    loadHighScore (saveHighScore s).localStorage = some (h : Int) := by
  have hget : getItem (saveHighScore s).localStorage "snakeHighScore" =
      some (numberToString (some (h : Int))) := by
    simp [saveHighScore, getItem, setItem, hh, List.lookup]
  obtain ⟨hne, hall, hval⟩ := toDigits_spec (shortestDecimal h).1
  have hall2 : ∀ c ∈ Nat.toDigits 10 (shortestDecimal h).1 ++
      List.replicate (shortestDecimal h).2 '0', 48 ≤ c.toNat ∧ c.toNat ≤ 57 := by
    intro c hc
    rcases List.mem_append.1 hc with hc | hc
    · exact hall c hc
    · rw [(List.mem_replicate.1 hc).2]; decide
  have hne2 : Nat.toDigits 10 (shortestDecimal h).1 ++
      List.replicate (shortestDecimal h).2 '0' ≠ [] := by
    simp [hne]
  have hstr : (⟨Nat.toDigits 10 (shortestDecimal h).1 ++
      List.replicate (shortestDecimal h).2 '0'⟩ : String) ≠ "" := by
    intro hcontra
    exact hne2 (congrArg String.data hcontra)
  unfold loadHighScore
  rw [hget, numberToString_plain h hlt]
  simp only [hstr, ne_eq, not_false_eq_true, if_true]
  rw [parseInt_decimal _ hne2 hall2, List.map_append, List.foldl_append, hval, foldl_zeros]
  unfold shortestDecimal
  rw [shortestFrom_round h hd]

/-- C18 as stated fails at h = 10^21, which is a JavaScript number: the number
is stored in exponent form, as the string "1e+21", and `parseInt` stops at the
letter e, so `loadHighScore` returns 1. -/
theorem highScore_roundtrip_fails :
    roundToDouble (10 ^ 21) = 10 ^ 21 ∧
      getItem (saveHighScore
        { stateOf 30 [⟨15, 15⟩, ⟨14, 15⟩, ⟨13, 15⟩] ⟨0, 0⟩ ⟨0, 0⟩ ⟨0, 0⟩ false [] with
          highScore := some (10 ^ 21) }).localStorage "snakeHighScore" = some "1e+21" ∧
      loadHighScore (saveHighScore
        { stateOf 30 [⟨15, 15⟩, ⟨14, 15⟩, ⟨13, 15⟩] ⟨0, 0⟩ ⟨0, 0⟩ ⟨0, 0⟩ false [] with
          highScore := some (10 ^ 21) }).localStorage = some 1 ∧
      loadHighScore (saveHighScore
        { stateOf 30 [⟨15, 15⟩, ⟨14, 15⟩, ⟨13, 15⟩] ⟨0, 0⟩ ⟨0, 0⟩ ⟨0, 0⟩ false [] with
          highScore := some (10 ^ 21) }).localStorage ≠ some (10 ^ 21) := by
  refine ⟨by decide, by decide, by decide, by decide⟩

/-- C18, amended.  `loadHighScore` returns 0 when the key "snakeHighScore" is
absent from the store.  For every natural number `h` below 10^21 that is a
JavaScript number, `saveHighScore` on a state whose high score is `h` leaves a
store from which `loadHighScore` returns `h`; every `h` below 2^53 is such a
number. -/
theorem highScore_roundtrip :
    (∀ store, getItem store "snakeHighScore" = none → loadHighScore store = some 0) ∧
    (∀ (s : State) (h : Nat), s.highScore = some (h : Int) → h < 10 ^ 21 →
      roundToDouble h = h →
        loadHighScore (saveHighScore s).localStorage = some (h : Int)) ∧
    (∀ (s : State) (h : Nat), s.highScore = some (h : Int) → h < 2 ^ 53 →
      loadHighScore (saveHighScore s).localStorage = some (h : Int)) := by
  refine ⟨fun store hnone => by simp [loadHighScore, hnone],
    fun s h hh hlt hd => load_after_save s h hh hlt hd, fun s h hh hlt => ?_⟩
  exact load_after_save s h hh
    (lt_trans hlt (by norm_num)) (roundToDouble_of_lt h hlt)

/-- C18 amended, at concrete inputs: the empty store loads as 0; a state with
high score 120 saves the string "120", which loads as 120; and the high score
2^60, a JavaScript number above 2^53, is saved as "1152921504606847000" and
loads as 2^60. -/
theorem highScore_roundtrip_witness :
    loadHighScore [] = some 0 ∧
      getItem (saveHighScore
        { stateOf 30 [⟨15, 15⟩, ⟨14, 15⟩, ⟨13, 15⟩] ⟨0, 0⟩ ⟨0, 0⟩ ⟨0, 0⟩ false [] with
          highScore := some 120 }).localStorage "snakeHighScore" = some "120" ∧
      loadHighScore (saveHighScore
        { stateOf 30 [⟨15, 15⟩, ⟨14, 15⟩, ⟨13, 15⟩] ⟨0, 0⟩ ⟨0, 0⟩ ⟨0, 0⟩ false [] with
          highScore := some 120 }).localStorage = some 120 ∧
      getItem (saveHighScore
        { stateOf 30 [⟨15, 15⟩, ⟨14, 15⟩, ⟨13, 15⟩] ⟨0, 0⟩ ⟨0, 0⟩ ⟨0, 0⟩ false [] with
          highScore := some (2 ^ 60) }).localStorage "snakeHighScore" =
        some "1152921504606847000" ∧
      loadHighScore (saveHighScore
        { stateOf 30 [⟨15, 15⟩, ⟨14, 15⟩, ⟨13, 15⟩] ⟨0, 0⟩ ⟨0, 0⟩ ⟨0, 0⟩ false [] with
          highScore := some (2 ^ 60) }).localStorage = some (2 ^ 60) :=
  ⟨highScore_roundtrip.1 [] rfl, by decide,
    highScore_roundtrip.2.2
      { stateOf 30 [⟨15, 15⟩, ⟨14, 15⟩, ⟨13, 15⟩] ⟨0, 0⟩ ⟨0, 0⟩ ⟨0, 0⟩ false [] with
        highScore := some 120 } 120 rfl (by decide),
    by decide,
    highScore_roundtrip.2.1
      { stateOf 30 [⟨15, 15⟩, ⟨14, 15⟩, ⟨13, 15⟩] ⟨0, 0⟩ ⟨0, 0⟩ ⟨0, 0⟩ false [] with
        highScore := some (2 ^ 60) } (2 ^ 60) rfl (by decide) (by decide)⟩

end SnakeGame
